import Mathlib

/-!
# hifi voxel server: jurisdiction map, startup and receive loop

A shallow embedding of

* `libraries/voxels/src/JurisdictionMap.h` (the class declaration; the bodies of its
  member functions are not part of the sources at hand and are modelled from the
  specification, each such definition saying so), and
* `voxel-server/src/main.cpp` (`attachVoxelNodeDataToNode`, the startup of `main` and its
  receive loop),
* `interface/src/Menu.cpp` (the domain switch of `editPreferences` and `goToDomain`, and
  `updateVoxelModeActions`),
* `interface/src/VoxelImporter.cpp` (`ImportTask::run`), and
* `assignment-client/src/main.cpp` (the fork loop of `main`).

The inbound packet processor, the send worker and the compaction pass, whose code is not
part of the sources at hand, are modelled from the specification.
-/

namespace Hifi

/-! ## Spatial addresses -/

/-- A spatial address (octal code): the path from the tree root, each step selecting one
of the eight children. -/
abbrev OctalCode := List (Fin 8)

/-- Address `a` is `b` itself or a descendant of `b`: the path `b` followed by further
steps (possibly none). -/
def EqualsOrDescends (a b : OctalCode) : Prop := ∃ t : OctalCode, a = b ++ t

/-- Address `a` is a strict descendant of `b`: the path `b` followed by at least one
further step. -/
def StrictDescendant (a b : OctalCode) : Prop := ∃ t : OctalCode, t ≠ [] ∧ a = b ++ t

/-- Executable test: `a` is an ancestor of `b` or equal to it (walks both paths from the
tree root). -/
def isAncestorOrEqual : OctalCode → OctalCode → Bool
  | [], _ => true
  | _ :: _, [] => false
  | x :: a, y :: b => x == y && isAncestorOrEqual a b

/-- Executable test: `a` is a strict ancestor of `b`. -/
def isStrictAncestor (a b : OctalCode) : Bool :=
  isAncestorOrEqual a b && decide (a.length < b.length)

/-! ## JurisdictionMap (JurisdictionMap.h) -/

/-- The enum `JurisdictionMap::Area` of JurisdictionMap.h. -/
inductive Area where
  | ABOVE
  | WITHIN
  | BELOW
  deriving DecidableEq, Repr

/-- The data members of `class JurisdictionMap`: `_rootOctalCode` and `_endNodes`
(an ordered vector of addresses). -/
structure JurisdictionMap where
  rootOctalCode : OctalCode
  endNodes : List OctalCode
  deriving DecidableEq, Repr

/-- The invariant of a jurisdiction map: every end node is a strict descendant of the
root. -/
def JurisdictionMap.Valid (J : JurisdictionMap) : Prop :=
  ∀ E ∈ J.endNodes, StrictDescendant E J.rootOctalCode

/-- Executable form of `JurisdictionMap.Valid`. -/
def JurisdictionMap.isValid (J : JurisdictionMap) : Bool :=
  J.endNodes.all (fun E => isStrictAncestor J.rootOctalCode E)

/-- Modelled from the spec: the body of `JurisdictionMap::isMyJurisdiction`, of which only
the declaration in JurisdictionMap.h is available. Following the contract of the
classification: an address that is an ancestor of the root or equal to it is ABOVE; an
address that equals or descends from some end node is BELOW; an address that descends
from the root without reaching an end node is WITHIN. The spec names no area for an
address that is neither an ancestor nor a descendant of the root; the area returned there
is the parameter `unrelated`, so that nothing proved below depends on it. The second
parameter `childIndex` of the declaration is not described by the spec; the address
`nodeOctalCode` itself is classified. -/
def JurisdictionMap.isMyJurisdiction (unrelated : Area) (J : JurisdictionMap)
    (nodeOctalCode : OctalCode) : Area :=
  if isAncestorOrEqual nodeOctalCode J.rootOctalCode then Area.ABOVE
  else if J.endNodes.any (fun E => isAncestorOrEqual E nodeOctalCode) then Area.BELOW
  else if isStrictAncestor J.rootOctalCode nodeOctalCode then Area.WITHIN
  else unrelated

/-! ### The three conditions of the classification contract -/

/-- The ABOVE condition: the address is a strict ancestor of the root or equal to it. -/
def AboveCond (J : JurisdictionMap) (A : OctalCode) : Prop :=
  EqualsOrDescends J.rootOctalCode A

/-- The BELOW condition: the address equals or descends from some end node. -/
def BelowCond (J : JurisdictionMap) (A : OctalCode) : Prop :=
  ∃ E ∈ J.endNodes, EqualsOrDescends A E

/-- The WITHIN condition: the address is a descendant of the root and neither equals nor
descends from any end node. -/
def WithinCond (J : JurisdictionMap) (A : OctalCode) : Prop :=
  StrictDescendant A J.rootOctalCode ∧ ∀ E ∈ J.endNodes, ¬ EqualsOrDescends A E

/-- The condition the classification contract attaches to each area. -/
def AreaCond : Area → JurisdictionMap → OctalCode → Prop
  | Area.ABOVE => AboveCond
  | Area.WITHIN => WithinCond
  | Area.BELOW => BelowCond

/-- The address is an ancestor of the root, equal to it, or a descendant of it. -/
def OnRootPath (J : JurisdictionMap) (A : OctalCode) : Prop :=
  EqualsOrDescends J.rootOctalCode A ∨ StrictDescendant A J.rootOctalCode

/-! ### Construction from two path strings -/

/-- The error of a failed construction. -/
inductive JurisdictionError where
  | MalformedJurisdiction
  deriving DecidableEq, Repr

/-- The characters that are octal digits. -/
def octalChars : List Char := ['0', '1', '2', '3', '4', '5', '6', '7']

/-- Modelled from the spec: the value of one character of a path string, absent for a
character that is not an octal digit (the string decoder itself is not part of the
sources at hand). -/
def octalDigit (c : Char) : Option (Fin 8) :=
  if c = '0' then some 0
  else if c = '1' then some 1
  else if c = '2' then some 2
  else if c = '3' then some 3
  else if c = '4' then some 4
  else if c = '5' then some 5
  else if c = '6' then some 6
  else if c = '7' then some 7
  else none

/-- Modelled from the spec: the address written as a run of octal digits, one step per
character, as the spec writes addresses ("046012"); absent when some character is not an
octal digit. -/
def octalDigits : List Char → Option OctalCode
  | [] => some []
  | c :: cs =>
    match octalDigit c, octalDigits cs with
    | some d, some ds => some (d :: ds)
    | _, _ => none

/-- Modelled from the spec: decoding of a path string given to the constructor (the
decoder is not part of the sources at hand). The string is rejected when its length is odd
(the hex encoding pairs its characters) or when it holds a character that is not an octal
digit; otherwise each character is one step of the path. -/
def hexStringToOctalCode (s : String) : Option OctalCode :=
  if s.length % 2 = 1 then none else octalDigits s.toList

/-- Modelled from the spec: the body of the constructor
`JurisdictionMap(const char* rootHextString, const char* endNodesHextString)`, declared in
JurisdictionMap.h. Both strings are decoded to a path; construction fails with
`MalformedJurisdiction` when either does not decode or when the end node is not a strict
descendant of the root. -/
def JurisdictionMap.fromHextStrings (rootHextString endNodesHextString : String) :
    Except JurisdictionError JurisdictionMap :=
  match hexStringToOctalCode rootHextString, hexStringToOctalCode endNodesHextString with
  | some R, some E =>
    if isStrictAncestor R E then Except.ok { rootOctalCode := R, endNodes := [E] }
    else Except.error JurisdictionError.MalformedJurisdiction
  | _, _ => Except.error JurisdictionError.MalformedJurisdiction

/-- Classification of an address written as a run of octal digits. -/
def classifyDigits (unrelated : Area) (J : JurisdictionMap) (address : String) :
    Option Area :=
  (octalDigits address.toList).map (J.isMyJurisdiction unrelated)

/-! ### Wire format -/

/-- Modelled from the spec: one address on the wire, its length followed by its steps.
The spec fixes no field width; every cell of a message holds one number. -/
def packOctalCode (code : OctalCode) : List Nat :=
  code.length :: code.map Fin.val

/-- Modelled from the spec: the body of `JurisdictionMap::packIntoMessage` (declared in
JurisdictionMap.h): root address length + bytes, followed by the end-node count and each
end node's length + bytes. The result is the bytes written into a destination buffer
large enough to hold them; the number of bytes written is its length. -/
def JurisdictionMap.packIntoMessage (J : JurisdictionMap) : List Nat :=
  packOctalCode J.rootOctalCode ++
    (J.endNodes.length :: (J.endNodes.map packOctalCode).flatten)

/-- Modelled from the spec: the body of `JurisdictionMap::packEmptyJurisdictionIntoMessage`
(declared in JurisdictionMap.h): the all-zero sentinel for "unknown jurisdiction", a zero
root length with nothing after it. -/
def packEmptyJurisdictionIntoMessage : List Nat := [0]

/-- Reads the steps of an address from wire cells; absent when a cell is not below 8. -/
def readSteps : List Nat → Option OctalCode
  | [] => some []
  | b :: bs =>
    if h : b < 8 then
      match readSteps bs with
      | some ds => some (⟨b, h⟩ :: ds)
      | none => none
    else none

/-- Reads one address (length, then steps) and returns it with the rest of the buffer;
absent when the buffer is too short. -/
def unpackOctalCode : List Nat → Option (OctalCode × List Nat)
  | [] => none
  | n :: rest =>
    if rest.length < n then none
    else
      match readSteps (rest.take n) with
      | some code => some (code, rest.drop n)
      | none => none

/-- Reads `count` addresses one after the other. -/
def unpackEndNodes : Nat → List Nat → Option (List OctalCode × List Nat)
  | 0, buf => some ([], buf)
  | count + 1, buf =>
    match unpackOctalCode buf with
    | none => none
    | some (code, rest) =>
      match unpackEndNodes count rest with
      | none => none
      | some (codes, rest2) => some (code :: codes, rest2)

/-- Modelled from the spec: the body of `JurisdictionMap::unpackFromMessage` (declared in
JurisdictionMap.h), the inverse of `packIntoMessage`. The result is absent when the buffer
is too short; otherwise it is the map read (`none` for the unknown-jurisdiction sentinel)
and the number of bytes read. -/
def unpackFromMessage (sourceBuffer : List Nat) :
    Option (Option JurisdictionMap × Nat) :=
  match unpackOctalCode sourceBuffer with
  | none => none
  | some (root, rest) =>
    match rest with
    | [] => if root = [] then some (none, sourceBuffer.length) else none
    | count :: rest2 =>
      match unpackEndNodes count rest2 with
      | none => none
      | some (codes, rest3) =>
        some (some { rootOctalCode := root, endNodes := codes },
          sourceBuffer.length - rest3.length)

/-! ## The receive loop of the voxel server (voxel-server/src/main.cpp) -/

/-- What PacketHeaders.h, NodeTypes.h and SharedUtil.h provide to the receive loop. These
headers are not part of the sources at hand, so their constants and functions are
parameters of the embedding. -/
structure PacketHeaders where
  PACKET_TYPE_HEAD_DATA : Nat
  PACKET_TYPE_PING : Nat
  PACKET_TYPE_DOMAIN : Nat
  PACKET_TYPE_VOXEL_JURISDICTION_REQUEST : Nat
  NODE_TYPE_AGENT : Nat
  packetVersionMatch : List Nat → Bool
  numBytesForPacketHeader : List Nat → Nat
  unpackNodeId : List Nat → Nat

/-- A datagram as `receive` delivers it: `senderAddress`, the buffer `packetData` and
`packetLength`. -/
structure ReceivedPacket where
  senderAddress : Nat
  packetData : List Nat
  packetLength : Nat
  deriving DecidableEq, Repr

/-- The calls the loop makes on the node list, with their arguments. The node handed to
`updateNodeWithData` is the one returned by the `addOrUpdateNode` call recorded just
before it. -/
inductive NodeListCall where
  | sendDomainServerCheckIn
  | addOrUpdateNode (publicSocket localSocket : Nat) (nodeType : Nat) (nodeID : Nat)
  | updateNodeWithData (packetData : List Nat) (packetLength : Nat)
  | processNodeData (senderAddress : Nat) (packetData : List Nat) (packetLength : Nat)
  deriving DecidableEq, Repr

/-- The `JurisdictionSender` object as main.cpp uses it: the jurisdiction it was
constructed with, whether `initialize(true)` was called, and the packets handed to
`queueReceivedPacket`, oldest first. -/
structure JurisdictionSender where
  jurisdiction : Option JurisdictionMap
  initialized : Bool
  receivedPackets : List ReceivedPacket
  deriving DecidableEq, Repr

/-- The `VoxelServerPacketProcessor` object as main.cpp uses it: whether
`initialize(true)` was called, and the packets handed to `queueReceivedPacket`, oldest
first. -/
structure VoxelServerPacketProcessor where
  initialized : Bool
  receivedPackets : List ReceivedPacket
  deriving DecidableEq, Repr

/-- The globals of main.cpp the receive loop touches, the calls made on the node list and
the lines printed (each `unknown packet ignored...` line is recorded by the byte it
shows). -/
structure ServerState where
  jurisdiction : Option JurisdictionMap
  jurisdictionSender : Option JurisdictionSender
  voxelServerPacketProcessor : Option VoxelServerPacketProcessor
  receivedPacketCount : Int
  lastDomainServerCheckIn : Nat
  nodeListCalls : List NodeListCall
  unknownPacketLines : List Nat
  deriving DecidableEq, Repr

/-- `queueReceivedPacket` on the jurisdiction sender. -/
def JurisdictionSender.queueReceivedPacket (js : JurisdictionSender)
    (senderAddress : Nat) (packetData : List Nat) (packetLength : Nat) :
    JurisdictionSender :=
  { js with receivedPackets := js.receivedPackets ++ [⟨senderAddress, packetData, packetLength⟩] }

/-- `queueReceivedPacket` on the packet processor. -/
def VoxelServerPacketProcessor.queueReceivedPacket (pp : VoxelServerPacketProcessor)
    (senderAddress : Nat) (packetData : List Nat) (packetLength : Nat) :
    VoxelServerPacketProcessor :=
  { pp with receivedPackets := pp.receivedPackets ++ [⟨senderAddress, packetData, packetLength⟩] }

/-- The byte `packetData[0]`. -/
def packetType (packetData : List Nat) : Nat := packetData.headD 0

/-- The state in which `main` enters its loop (main.cpp lines 251-268): the jurisdiction
sender is created with the jurisdiction chosen at startup and initialized, and the packet
processor is created and initialized. -/
def serverStart (jurisdiction : Option JurisdictionMap) : ServerState :=
  { jurisdiction := jurisdiction
    jurisdictionSender :=
      some { jurisdiction := jurisdiction, initialized := true, receivedPackets := [] }
    voxelServerPacketProcessor := some { initialized := true, receivedPackets := [] }
    receivedPacketCount := 0
    lastDomainServerCheckIn := 0
    nodeListCalls := []
    unknownPacketLines := [] }

/-- The body of `if (receive(...) && packetVersionMatch(packetData))` (main.cpp lines
282-308): the chain of tests on `packetData[0]`. -/
def dispatchPacket (h : PacketHeaders) (p : ReceivedPacket) (s : ServerState) :
    ServerState :=
  let numBytesPacketHeader := h.numBytesForPacketHeader p.packetData
  if packetType p.packetData = h.PACKET_TYPE_HEAD_DATA then
    let nodeID := h.unpackNodeId (p.packetData.drop numBytesPacketHeader)
    { s with nodeListCalls := s.nodeListCalls ++
        [NodeListCall.addOrUpdateNode p.senderAddress p.senderAddress h.NODE_TYPE_AGENT nodeID,
         NodeListCall.updateNodeWithData p.packetData p.packetLength] }
  else if packetType p.packetData = h.PACKET_TYPE_PING then
    { s with nodeListCalls := s.nodeListCalls ++
        [NodeListCall.processNodeData p.senderAddress p.packetData p.packetLength] }
  else if packetType p.packetData = h.PACKET_TYPE_DOMAIN then
    { s with nodeListCalls := s.nodeListCalls ++
        [NodeListCall.processNodeData p.senderAddress p.packetData p.packetLength] }
  else if packetType p.packetData = h.PACKET_TYPE_VOXEL_JURISDICTION_REQUEST then
    match s.jurisdictionSender with
    | some js =>
      let queued := js.queueReceivedPacket p.senderAddress p.packetData p.packetLength
      { s with jurisdictionSender := some queued }
    | none => s
  else
    match s.voxelServerPacketProcessor with
    | some pp =>
      let queued := pp.queueReceivedPacket p.senderAddress p.packetData p.packetLength
      { s with voxelServerPacketProcessor := some queued }
    | none => { s with unknownPacketLines := s.unknownPacketLines ++ [packetType p.packetData] }

/-- The receive step of one loop iteration (main.cpp lines 279-309). `received` is `none`
when `receive` returned false. -/
def receiveAndDispatch (h : PacketHeaders) (received : Option ReceivedPacket)
    (s : ServerState) : ServerState :=
  match received with
  | none => s
  | some p => if h.packetVersionMatch p.packetData then dispatchPacket h p s else s

/-- The check-in step of one loop iteration (main.cpp lines 273-277). `checkInDue` is the
outcome of the comparison of the clock readings against `DOMAIN_SERVER_CHECK_IN_USECS`,
`now` the time `gettimeofday` stores. -/
def domainServerCheckIn (checkInDue : Bool) (now : Nat) (s : ServerState) : ServerState :=
  if checkInDue then
    { s with
      lastDomainServerCheckIn := now,
      nodeListCalls := s.nodeListCalls ++ [NodeListCall.sendDomainServerCheckIn] }
  else s

/-- What one iteration of the loop reads from outside: the clock and the socket. -/
structure LoopInput where
  checkInDue : Bool
  now : Nat
  received : Option ReceivedPacket
  deriving DecidableEq, Repr

/-- One iteration of `while (true)` (main.cpp lines 271-310). -/
def loopIteration (h : PacketHeaders) (s : ServerState) (i : LoopInput) : ServerState :=
  receiveAndDispatch h i.received (domainServerCheckIn i.checkInDue i.now s)

/-- The loop run over a finite run of inputs, oldest first. -/
def runLoop (h : PacketHeaders) (inputs : List LoopInput) (s : ServerState) : ServerState :=
  inputs.foldl (loopIteration h) s

/-- Sample values of the header parameters, for evaluating the loop on concrete packets:
four distinct packet types, a version byte at index 1 that must be 1, a two-byte header. -/
def sampleHeaders : PacketHeaders :=
  { PACKET_TYPE_HEAD_DATA := 72
    PACKET_TYPE_PING := 80
    PACKET_TYPE_DOMAIN := 68
    PACKET_TYPE_VOXEL_JURISDICTION_REQUEST := 106
    NODE_TYPE_AGENT := 73
    packetVersionMatch := fun packetData => packetData.getD 1 0 == 1
    numBytesForPacketHeader := fun _ => 2
    unpackNodeId := fun bytes => bytes.headD 0 }

/-- The test the chain of `dispatchPacket` leaves for its last branch: the version matches
and `packetData[0]` is none of head-data, ping, domain and jurisdiction-request. -/
def routedToProcessor (h : PacketHeaders) (p : ReceivedPacket) : Bool :=
  h.packetVersionMatch p.packetData &&
    (decide (packetType p.packetData ≠ h.PACKET_TYPE_HEAD_DATA) &&
      (decide (packetType p.packetData ≠ h.PACKET_TYPE_PING) &&
        (decide (packetType p.packetData ≠ h.PACKET_TYPE_DOMAIN) &&
          decide (packetType p.packetData ≠ h.PACKET_TYPE_VOXEL_JURISDICTION_REQUEST))))

/-- The packets `receive` delivered over a run of iterations, in arrival order. -/
def arrivals (inputs : List LoopInput) : List ReceivedPacket :=
  inputs.filterMap (fun i => i.received)

/-- The packets queued to the packet processor so far, oldest first (none when there is no
processor). -/
def processorQueue (s : ServerState) : List ReceivedPacket :=
  match s.voxelServerPacketProcessor with
  | some pp => pp.receivedPackets
  | none => []

/-! ## The inbound packet processor -/

/-- The handlers the Inbound Packet Processor routes a recognized packet to. -/
inductive PacketRoute where
  | jurisdictionAnnouncer
  | sendWorkerInbox
  | treeEdit
  deriving DecidableEq, Repr

/-- The table of packet types the Inbound Packet Processor works from (PacketHeaders.h and
`VoxelServerPacketProcessor` are not part of the sources at hand, so the table is a
parameter): the handler of each recognized type, `none` for a type that is not recognized,
and the number of bytes the header of a packet of a given type takes. -/
structure PacketTable where
  routeOfType : Nat → Option PacketRoute
  headerBytes : Nat → Nat

/-- What the Inbound Packet Processor has done with the entries of its queue: the packets
handed to a handler, oldest first, and the two diagnostic counters. -/
structure InboundPacketProcessor where
  handled : List (PacketRoute × ReceivedPacket)
  unrecognizedCount : Nat
  malformedCount : Nat
  deriving DecidableEq, Repr

/-- Modelled from the spec: what the Inbound Packet Processor (`VoxelServerPacketProcessor`,
whose body is not part of the sources at hand) does with one entry of its queue. The
packet type byte is parsed; a packet of a type that is not recognized is dropped and
counted; a packet with fewer bytes than the header of its type takes is dropped and
counted as malformed; any other packet is handed to the handler of its type. -/
def InboundPacketProcessor.processPacket (table : PacketTable) (ipp : InboundPacketProcessor)
    (p : ReceivedPacket) : InboundPacketProcessor :=
  match table.routeOfType (packetType p.packetData) with
  | none => { ipp with unrecognizedCount := ipp.unrecognizedCount + 1 }
  | some route =>
    if p.packetLength < table.headerBytes (packetType p.packetData) then
      { ipp with malformedCount := ipp.malformedCount + 1 }
    else { ipp with handled := ipp.handled ++ [(route, p)] }

/-- Modelled from the spec: the single consumer draining the queue, oldest entry first. -/
def InboundPacketProcessor.drain (table : PacketTable) (queue : List ReceivedPacket)
    (ipp : InboundPacketProcessor) : InboundPacketProcessor :=
  queue.foldl (InboundPacketProcessor.processPacket table) ipp

/-- The Inbound Packet Processor before it has taken any entry. -/
def InboundPacketProcessor.start : InboundPacketProcessor :=
  { handled := [], unrecognizedCount := 0, malformedCount := 0 }

/-- The type of a packet is not one the table recognizes. -/
def unrecognizedType (table : PacketTable) (p : ReceivedPacket) : Bool :=
  (table.routeOfType (packetType p.packetData)).isNone

/-- A sample table, for evaluating the processor on concrete packets: type 86 is a tree
edit, type 81 goes to the inbox of a send worker, every other type is not recognized; every
header takes two bytes. -/
def samplePacketTable : PacketTable :=
  { routeOfType := fun t =>
      if t = 86 then some PacketRoute.treeEdit
      else if t = 81 then some PacketRoute.sendWorkerInbox
      else none
    headerBytes := fun _ => 2 }

/-! ## Startup of the voxel server (voxel-server/src/main.cpp) -/

/-- The two application constructors of `JurisdictionMap` that `main` calls. Their bodies
are not part of the sources at hand, so they are parameters; a constructor either yields a
map or fails. The string constructor receives the two pointers as `main` passes them,
`none` standing for NULL. -/
structure JurisdictionConstructors where
  fromFilename : String → Except JurisdictionError JurisdictionMap
  fromHextStrings : Option String → Option String → Except JurisdictionError JurisdictionMap

/-- What `getCmdOption` returns for `--jurisdictionFile`, `--jurisdictionRoot` and
`--jurisdictionEndNodes` (`none` for NULL, the option not given). -/
structure JurisdictionOptions where
  jurisdictionFile : Option String
  jurisdictionRoot : Option String
  jurisdictionEndNodes : Option String
  deriving DecidableEq, Repr

/-- The choice of the jurisdiction at startup (main.cpp lines 88-112): the value left in
the global `jurisdiction`, or the failure of the constructor called. -/
def chooseJurisdiction (c : JurisdictionConstructors) (o : JurisdictionOptions) :
    Except JurisdictionError (Option JurisdictionMap) :=
  match o.jurisdictionFile with
  | some jurisdictionFile =>
    match c.fromFilename jurisdictionFile with
    | Except.ok J => Except.ok (some J)
    | Except.error e => Except.error e
  | none =>
    if o.jurisdictionRoot.isSome || o.jurisdictionEndNodes.isSome then
      match c.fromHextStrings o.jurisdictionRoot o.jurisdictionEndNodes with
      | Except.ok J => Except.ok (some J)
      | Except.error e => Except.error e
    else Except.ok none

/-- Startup up to the loop, as far as the jurisdiction goes: a constructor that fails is
not caught by `main`, so the loop is not reached; otherwise the loop is entered in
`serverStart` of the jurisdiction chosen. -/
def serverStartup (c : JurisdictionConstructors) (o : JurisdictionOptions) :
    Except JurisdictionError ServerState :=
  match chooseJurisdiction c o with
  | Except.ok jurisdiction => Except.ok (serverStart jurisdiction)
  | Except.error e => Except.error e

/-- Modelled from the spec: the string constructor applied to the two pointers `main`
passes, either of which is NULL (`none`) when its option is not given (the body of the
constructor is not part of the sources at hand). Two strings are handled by
`JurisdictionMap.fromHextStrings`. What the constructor does with an absent string is said
neither by the spec nor by the sources at hand, so it is the parameter `absentArgument`. -/
def JurisdictionMap.fromHextArguments
    (absentArgument : Option String → Option String → Except JurisdictionError JurisdictionMap)
    (rootHextString endNodesHextString : Option String) :
    Except JurisdictionError JurisdictionMap :=
  match rootHextString, endNodesHextString with
  | some r, some e => JurisdictionMap.fromHextStrings r e
  | r, e => absentArgument r e

/-- The constructors with the string constructor modelled from the spec; the file
constructor and the handling of an absent string stay parameters. -/
def specConstructors (fromFilename : String → Except JurisdictionError JurisdictionMap)
    (absentArgument : Option String → Option String → Except JurisdictionError JurisdictionMap) :
    JurisdictionConstructors :=
  { fromFilename := fromFilename
    fromHextStrings := JurisdictionMap.fromHextArguments absentArgument }

/-- A handling of an absent string, for evaluating startup on concrete options: a root
alone gives the map with that root and no end node, and fails when the root does not
decode; an end node alone is taken below the tree root, and fails when it does not decode
or is the tree root itself; with neither string the map has the tree root as its root and
no end node. The construction fails for the causes the spec lists and for no other. -/
def sampleAbsentArgument (rootHextString endNodesHextString : Option String) :
    Except JurisdictionError JurisdictionMap :=
  match rootHextString, endNodesHextString with
  | some r, _ =>
    match hexStringToOctalCode r with
    | some R => Except.ok { rootOctalCode := R, endNodes := [] }
    | none => Except.error JurisdictionError.MalformedJurisdiction
  | none, some e =>
    match hexStringToOctalCode e with
    | some E =>
      if isStrictAncestor [] E then Except.ok { rootOctalCode := [], endNodes := [E] }
      else Except.error JurisdictionError.MalformedJurisdiction
    | none => Except.error JurisdictionError.MalformedJurisdiction
  | none, none => Except.ok { rootOctalCode := [], endNodes := [] }

/-- A file constructor for evaluating startup on concrete options: every file holds the
map with the tree root as its root and no end node. -/
def sampleFromFilename (_filename : String) : Except JurisdictionError JurisdictionMap :=
  Except.ok { rootOctalCode := [], endNodes := [] }

/-! ### The jurisdiction sender's replies -/

/-- Modelled from the spec: the message the Jurisdiction Announcer (`JurisdictionSender`,
whose body is not part of the sources at hand) sends to a requester: the packed map it
holds, or the empty-jurisdiction sentinel when it holds none. -/
def JurisdictionSender.messageToSend (js : JurisdictionSender) : List Nat :=
  match js.jurisdiction with
  | some J => J.packIntoMessage
  | none => packEmptyJurisdictionIntoMessage

/-- Modelled from the spec: the replies of the Jurisdiction Announcer to the requests
queued to it, one message per request, addressed to the sender of the request. -/
def JurisdictionSender.replies (js : JurisdictionSender) : List (Nat × List Nat) :=
  js.receivedPackets.map (fun p => (p.senderAddress, js.messageToSend))

/-! ### Per-client data (main.cpp lines 65-69) -/

/-- A node of the node list as `attachVoxelNodeDataToNode` sees it: its identifier and its
linked data (`none` for NULL). -/
structure Node (D : Type) where
  nodeID : Nat
  linkedData : Option D
  deriving DecidableEq, Repr

/-- The function `attachVoxelNodeDataToNode` of main.cpp. The constructor
`VoxelNodeData(newNode)` (VoxelNodeData.h, not part of the sources at hand) is the
parameter `newVoxelNodeData`. -/
def attachVoxelNodeDataToNode {D : Type} (newVoxelNodeData : Node D → D)
    (newNode : Node D) : Node D :=
  if newNode.linkedData.isNone then
    { newNode with linkedData := some (newVoxelNodeData newNode) }
  else newNode

/-! ### Loading the voxels at startup (main.cpp lines 173-225) -/

/-- The constant `LOCAL_VOXELS_PERSIST_FILE` of main.cpp. -/
def LOCAL_VOXELS_PERSIST_FILE : String := "resources/voxels.svo"

/-- The constant `VOXELS_PERSIST_FILE` of main.cpp. -/
def VOXELS_PERSIST_FILE : String := "/etc/highfidelity/voxel-server/resources/voxels.svo"

/-- What `VoxelTree` provides to startup. VoxelTree.h is not part of the sources at hand, so
the tree type and its operations are parameters: the tree `VoxelTree serverTree(true)`
constructs, `readFromSVOFile` (its result and the tree it leaves), `reaverageVoxelColors`
from the root, and `clearDirtyBit`. -/
structure VoxelTreeOps (T : Type) where
  newTree : T
  readFromSVOFile : T → String → Bool × T
  reaverageVoxelColors : T → T
  clearDirtyBit : T → T

/-- What startup reads from the command line for the voxels: `wantVoxelPersist` (false when
`--NoVoxelPersist` is given), the value of `--voxelsPersistFilename`, `wantLocalDomain`
(`--local`) and the value of `-i`. -/
structure VoxelOptions where
  wantVoxelPersist : Bool
  voxelsPersistFilenameParameter : Option String
  wantLocalDomain : Bool
  voxelsFilename : Option String
  deriving DecidableEq, Repr

/-- The `VoxelPersistThread` object as main.cpp uses it: the file name it was constructed
with (next to the server tree) and whether `initialize(true)` was called. -/
structure VoxelPersistThread where
  filename : String
  initialized : Bool
  deriving DecidableEq, Repr

/-- The voxel state `main` has built when it reaches the loop: the server tree, the local
`persistantFileRead`, whether the line `Voxels reAveraged` was printed (the reaveraging
pass was run), the global `voxelPersistFilename` and the global `voxelPersistThread`. -/
structure VoxelStartup (T : Type) where
  serverTree : T
  persistantFileRead : Bool
  printedVoxelsReAveraged : Bool
  voxelPersistFilename : String
  voxelPersistThread : Option VoxelPersistThread

/-- The name copied into `voxelPersistFilename` (main.cpp lines 185-191). -/
def persistFilename (o : VoxelOptions) : String :=
  match o.voxelsPersistFilenameParameter with
  | some voxelsPersistFilenameParameter => voxelsPersistFilenameParameter
  | none => if o.wantLocalDomain then LOCAL_VOXELS_PERSIST_FILE else VOXELS_PERSIST_FILE

/-- The persist block of `main` (lines 180-217), run when `wantVoxelPersist` holds. -/
def loadPersistFile {T : Type} (ops : VoxelTreeOps T) (o : VoxelOptions) : VoxelStartup T :=
  let filename := persistFilename o
  let readResult := ops.readFromSVOFile ops.newTree filename
  let persistantFileRead := readResult.1
  let reaveraged :=
    if persistantFileRead then ops.reaverageVoxelColors readResult.2 else readResult.2
  { serverTree := ops.clearDirtyBit reaveraged
    persistantFileRead := persistantFileRead
    printedVoxelsReAveraged := persistantFileRead
    voxelPersistFilename := filename
    voxelPersistThread := some { filename := filename, initialized := true } }

/-- The voxel part of startup (main.cpp lines 173-225): the persist block when persistence
is wanted, then the read of the `-i` file when one is given. -/
def loadVoxels {T : Type} (ops : VoxelTreeOps T) (o : VoxelOptions) : VoxelStartup T :=
  let afterPersist : VoxelStartup T :=
    if o.wantVoxelPersist then loadPersistFile ops o
    else
      { serverTree := ops.newTree
        persistantFileRead := false
        printedVoxelsReAveraged := false
        voxelPersistFilename := ""
        voxelPersistThread := none }
  match o.voxelsFilename with
  | some voxelsFilename =>
    { afterPersist with
      serverTree := (ops.readFromSVOFile afterPersist.serverTree voxelsFilename).2 }
  | none => afterPersist

/-- A tree for evaluating startup on concrete options: the voxels held and the dirty bit.
The only readable file is "in.svo", which holds the voxel 7; a failed read leaves the tree
untouched. -/
def sampleTreeOps : VoxelTreeOps (List Nat × Bool) :=
  { newTree := ([], false)
    readFromSVOFile := fun t filename =>
      if filename = "in.svo" then (true, (t.1 ++ [7], true)) else (false, t)
    reaverageVoxelColors := fun t => t
    clearDirtyBit := fun t => (t.1, false) }

/-! ## The spatial tree and its compaction pass -/

/-- A color value: red, green and blue. -/
structure Color where
  red : Nat
  green : Nat
  blue : Nat
  deriving DecidableEq, Repr

/-- A child slot of the spatial tree: absent, or a node with its existence flag, its color
value, its dirty marker and its eight child slots. The tree is the slot of its root. -/
inductive VoxelNode where
  | absent
  | present (existence : Bool) (color : Color) (dirty : Bool) (children : Fin 8 → VoxelNode)

/-- The color of a slot that counts in an average: that of a present node whose existence
flag is set. -/
def VoxelNode.existingColor : VoxelNode → Option Color
  | VoxelNode.absent => none
  | VoxelNode.present existence color _ _ => if existence then some color else none

/-- The average of a list of colors, component by component (integer division). -/
def averageColor (colors : List Color) : Color :=
  { red := (colors.map Color.red).sum / colors.length
    green := (colors.map Color.green).sum / colors.length
    blue := (colors.map Color.blue).sum / colors.length }

/-- The colors of the children that count, by slot index. -/
def childColors (children : Fin 8 → VoxelNode) : List Color :=
  (List.finRange 8).filterMap (fun i => (children i).existingColor)

/-- Modelled from the spec: the compaction pass `reaverageVoxelColors` (VoxelTree, not part
of the sources at hand): bottom-up, the children first, then the color of the node becomes
the existence-weighted average of the colors of its present children; a node none of whose
children is colored is left as it is. -/
def reaverageVoxelColors : VoxelNode → VoxelNode
  | VoxelNode.absent => VoxelNode.absent
  | VoxelNode.present existence color dirty children =>
    let reaveraged : Fin 8 → VoxelNode := fun i => reaverageVoxelColors (children i)
    if childColors reaveraged = [] then VoxelNode.present existence color dirty reaveraged
    else VoxelNode.present existence (averageColor (childColors reaveraged)) dirty reaveraged

/-! ## Numeric command-line options (voxel-server/src/main.cpp) -/

/-- The C library test `isspace` in the C locale: space, and the controls 9 to 13. -/
def isspace (c : Char) : Bool :=
  c = ' ' || (decide (9 ≤ c.toNat) && decide (c.toNat ≤ 13))

/-- The value of a run of leading decimal digits, continuing from `acc`; stops at the
first character that is not a digit. -/
def digitsValue : List Char → Nat → Nat
  | [], acc => acc
  | c :: cs, acc => if c.isDigit then digitsValue cs (acc * 10 + (c.toNat - 48)) else acc

/-- The integer a string writes in the form `strtol` reads in base 10: leading white space
is skipped, an optional sign is read, then the leading decimal digits; the value is 0 when
there is none. -/
def writtenInteger (s : String) : Int :=
  match s.toList.dropWhile isspace with
  | '-' :: rest => - (digitsValue rest 0 : Int)
  | '+' :: rest => (digitsValue rest 0 : Int)
  | rest => (digitsValue rest 0 : Int)

/-- The C library function `strtol` in base 10 with a 64-bit `long`: the integer written,
or `LONG_MAX` / `LONG_MIN` when it lies outside the range of `long`. -/
def strtol (s : String) : Int :=
  max (-9223372036854775808) (min (writtenInteger s) 9223372036854775807)

/-- The conversion of an integer to a 32-bit `int`: the value modulo 2^32 that lies
between -2^31 and 2^31 - 1. -/
def toInt32 (n : Int) : Int :=
  (n + 2147483648) % 4294967296 - 2147483648

/-- The C library function `atoi`, whose result is a 32-bit `int`. In the range of `int`
the result is the integer written. Outside it C leaves the result undefined; the value
here is the one of the C library of the platforms the program is built for, where `atoi`
is `(int) strtol(s, NULL, 10)`: the `long` read, cut to its low 32 bits. -/
def atoi (s : String) : Int :=
  toInt32 (strtol s)

/-- The value of `PACKETS_PER_CLIENT_PER_INTERVAL` after the option `--packetsPerSecond`
is handled (main.cpp lines 45 and 227-236). `packetsPerSecond` is what `getCmdOption`
returns, `none` for NULL. The constant `INTERVALS_PER_SECOND` comes from a header that is
not part of the sources at hand and is a parameter (nonzero, C leaving a division by zero
undefined); the division of two `int` truncates toward zero. -/
def packetsPerClientPerInterval (INTERVALS_PER_SECOND : Int)
    (packetsPerSecond : Option String) : Int :=
  match packetsPerSecond with
  | none => 10
  | some packetsPerSecond =>
    let perInterval := Int.tdiv (atoi packetsPerSecond) INTERVALS_PER_SECOND
    if perInterval < 1 then 1 else perInterval

/-- The value of `listenPort` after the option `--port` is handled (main.cpp lines 76-86).
`portParameter` is what `getCmdOption` returns, `none` for NULL; the constant
`VOXEL_LISTEN_PORT` comes from a header that is not part of the sources at hand and is a
parameter. -/
def listenPort (VOXEL_LISTEN_PORT : Int) (portParameter : Option String) : Int :=
  match portParameter with
  | none => VOXEL_LISTEN_PORT
  | some portParameter =>
    let parsed := atoi portParameter
    if parsed < 1 then VOXEL_LISTEN_PORT else parsed

/-! ## Destinations of the dispatch (main.cpp lines 284-308) -/

/-- The destinations the chain of `dispatchPacket` hands a packet to. -/
inductive Destination where
  | nodeRegistration
  | nodeList
  | jurisdictionSender
  | packetProcessor
  deriving DecidableEq, Repr

/-- The destination the chain selects for a first byte, in the order of its tests. -/
def destinationOf (h : PacketHeaders) (firstByte : Nat) : Destination :=
  if firstByte = h.PACKET_TYPE_HEAD_DATA then Destination.nodeRegistration
  else if firstByte = h.PACKET_TYPE_PING then Destination.nodeList
  else if firstByte = h.PACKET_TYPE_DOMAIN then Destination.nodeList
  else if firstByte = h.PACKET_TYPE_VOXEL_JURISDICTION_REQUEST then
    Destination.jurisdictionSender
  else Destination.packetProcessor

/-- The number of receivers (node list, jurisdiction sender, packet processor) whose
recorded state differs between two server states. -/
def receiversChanged (before after : ServerState) : Nat :=
  (if after.nodeListCalls = before.nodeListCalls then 0 else 1) +
  (if after.jurisdictionSender = before.jurisdictionSender then 0 else 1) +
  (if after.voxelServerPacketProcessor = before.voxelServerPacketProcessor then 0 else 1)

/-! ## The interface menu (interface/src/Menu.cpp) -/

/-- The bytes of a string of ASCII characters, as `toLocal8Bit` gives them. -/
def localBytes (s : String) : List Nat := s.toList.map Char.toNat

/-- The C library function `memcmp` on the first `n` bytes of two buffers: zero when they
agree, otherwise the difference of the first two bytes that differ. A buffer is given by
the bytes it starts with; bytes after them read as zero. -/
def memcmp : List Nat → List Nat → Nat → Int
  | _, _, 0 => 0
  | a, b, n + 1 =>
    if a.headD 0 = b.headD 0 then memcmp a.tail b.tail n
    else (a.headD 0 : Int) - (b.headD 0 : Int)

/-- The C string a buffer holds: its bytes up to the first zero. -/
def cString (buffer : List Nat) : List Nat := buffer.takeWhile (fun b => b ≠ 0)

/-- The calls `Menu::editPreferences` and `Menu::goToDomain` make when they switch the
domain: `NodeList::clear`, `killLocalVoxels`, `Environment::resetToDefault` and
`NodeList::setDomainHostname` with its argument. -/
inductive DomainCall where
  | clear
  | killLocalVoxels
  | resetToDefault
  | setDomainHostname (hostname : List Nat)
  deriving DecidableEq, Repr

/-- The domain hostname of the node list (the C string `getDomainHostname` returns,
without its terminating zero) and the calls made so far, oldest first. -/
structure DomainState where
  domainHostname : List Nat
  calls : List DomainCall
  deriving DecidableEq, Repr

/-- The block `Menu::editPreferences` (Menu.cpp lines 720-743) and `Menu::goToDomain`
(lines 790-813) share, run once the dialog is accepted. `text` is the content of the
hostname field as bytes; `DEFAULT_DOMAIN_HOSTNAME` comes from a header that is not part of
the sources at hand and is a parameter. -/
def switchDomainHostname (DEFAULT_DOMAIN_HOSTNAME : List Nat) (text : List Nat)
    (s : DomainState) : DomainState :=
  let newHostname := if text.length > 0 then text else cString DEFAULT_DOMAIN_HOSTNAME
  if memcmp (s.domainHostname ++ [0]) (newHostname ++ [0]) newHostname.length ≠ 0 then
    { domainHostname := cString newHostname
      calls := s.calls ++
        [DomainCall.clear, DomainCall.killLocalVoxels, DomainCall.resetToDefault,
         DomainCall.setDomainHostname (cString newHostname)] }
  else s

/-- The function `Menu::goToDomain`: nothing is done unless the dialog is accepted. -/
def Menu.goToDomain (DEFAULT_DOMAIN_HOSTNAME : List Nat) (accepted : Bool)
    (text : List Nat) (s : DomainState) : DomainState :=
  if accepted then switchDomainHostname DEFAULT_DOMAIN_HOSTNAME text s else s

/-- The function `Menu::editPreferences` as far as the domain goes (the statements after
line 743 set other preferences and touch neither the hostname nor these calls). -/
def Menu.editPreferences (DEFAULT_DOMAIN_HOSTNAME : List Nat) (accepted : Bool)
    (text : List Nat) (s : DomainState) : DomainState :=
  if accepted then switchDomainHostname DEFAULT_DOMAIN_HOSTNAME text s else s

/-- The function `Menu::updateVoxelModeActions` (Menu.cpp lines 917-924): `actions` are the
actions of `_voxelModeActionsGroup` in order, `sender` is what `sender()` returns (`none`
for NULL) and `isChecked` the checked state of every action; the result is the checked
state after the loop. -/
def updateVoxelModeActions (actions : List Nat) (sender : Option Nat)
    (isChecked : Nat → Bool) : Nat → Bool :=
  actions.foldl
    (fun checked action =>
      if checked action && (some action != sender) then Function.update checked action false
      else checked)
    isChecked

/-! ## The voxel importer (interface/src/VoxelImporter.cpp) -/

/-- The test `QString::endsWith(suffix, Qt::CaseInsensitive)`: the case-folded suffix ends
the case-folded string. The folding of a character (`QChar::toCaseFolded`, a library
function) is a parameter. -/
def endsWith (toCaseFolded : Char → Char) (s suffix : String) : Bool :=
  (suffix.toList.map toCaseFolded).isSuffixOf (s.toList.map toCaseFolded)

/-- What `ImportTask::run` does with the file name: the reader it calls on the voxel
system, or the line `[ERROR] Invalid file extension.` it prints. -/
inductive ImportCall where
  | readFromSquareARGB32Pixels (filename : String)
  | readFromSVOFile (filename : String)
  | readFromSchematicFile (filename : String)
  | invalidFileExtension
  deriving DecidableEq, Repr

/-- The function `ImportTask::run` (VoxelImporter.cpp lines 157-167). -/
def ImportTask.run (toCaseFolded : Char → Char) (filename : String) : ImportCall :=
  if endsWith toCaseFolded filename ".png" then
    ImportCall.readFromSquareARGB32Pixels filename
  else if endsWith toCaseFolded filename ".svo" then
    ImportCall.readFromSVOFile filename
  else if endsWith toCaseFolded filename ".schematic" then
    ImportCall.readFromSchematicFile filename
  else ImportCall.invalidFileExtension

/-- The readers an import call runs: one for a reader call, none for the error line. -/
def ImportCall.readersRun : ImportCall → Nat
  | ImportCall.invalidFileExtension => 0
  | _ => 1

/-! ## The assignment client (assignment-client/src/main.cpp) -/

/-- What a process runs after the forks: `childClient()` or `parentMonitor()`. -/
inductive ProcessRole where
  | childClient
  | parentMonitor
  deriving DecidableEq, Repr

/-- The variables of a process while it runs the fork loop of `main`: the local
`processID`, the entries written to `childForks` so far, and the number of calls of
`fork` the process has gone through. -/
structure ForkState where
  processID : Int
  childForks : List Int
  forkCalls : Nat
  deriving DecidableEq, Repr

/-- The loop `for (int i = 0; i < ::numForks; i++)` of `main` (lines 223-233), seen from
one process: `forkReturn i` is the value the `i`-th call of `fork` returns in this
process (zero in the child the call creates), `iterations` the iterations left. -/
def forkChildren (forkReturn : Nat → Int) : (iterations : Nat) → (i : Nat) → ForkState →
    ForkState
  | 0, _, st => st
  | iterations + 1, i, st =>
    if forkReturn i = 0 then
      { st with processID := 0, forkCalls := st.forkCalls + 1 }
    else
      forkChildren forkReturn iterations (i + 1)
        { processID := forkReturn i
          childForks := st.childForks ++ [forkReturn i]
          forkCalls := st.forkCalls + 1 }

/-- What `main` of the assignment client comes to in one process: `numForks`, the state
the fork loop ends in, and what the process then runs. -/
structure MainOutcome where
  numForks : Int
  forks : ForkState
  role : ProcessRole
  deriving DecidableEq, Repr

/-- The function `main` of the assignment client from line 211 on, seen from one process.
`numForksString` is what `getCmdOption` returns for `-n` (`none` for NULL). A negative
count makes `new pid_t[::numForks]` fail, which ends the process: the outcome is absent. -/
def assignmentClientMain (numForksString : Option String) (forkReturn : Nat → Int) :
    Option MainOutcome :=
  match numForksString with
  | none =>
    some { numForks := 0, forks := { processID := 0, childForks := [], forkCalls := 0 },
           role := ProcessRole.childClient }
  | some numForksString =>
    let numForks := atoi numForksString
    if numForks < 0 then none
    else
      let forks := forkChildren forkReturn numForks.toNat 0
        { processID := 0, childForks := [], forkCalls := 0 }
      some { numForks := numForks, forks := forks,
             role := if forks.processID = 0 ∨ numForks = 0 then ProcessRole.childClient
                     else ProcessRole.parentMonitor }

/-! ## The per-client send worker -/

/-- Modelled from the spec: one interval of a Per-Client Send Worker (`VoxelSendThread`,
not part of the sources at hand; main.cpp only holds its budget
`PACKETS_PER_CLIENT_PER_INTERVAL`). Packets are emitted from the pending ones in order
until the budget of the interval is exhausted; the result is the packets emitted and the
packets left for the following interval. -/
def sendInterval {α : Type} : (budget : Nat) → (pending : List α) → List α × List α
  | 0, pending => ([], pending)
  | _ + 1, [] => ([], [])
  | budget + 1, packet :: pending =>
    ((packet :: (sendInterval budget pending).1), (sendInterval budget pending).2)

/-- Modelled from the spec: the packets emitted in each of the next `intervals` intervals,
every interval resuming from the next unsent packet. -/
def sendIntervals {α : Type} (budget : Nat) : (intervals : Nat) → (pending : List α) →
    List (List α)
  | 0, _ => []
  | intervals + 1, pending =>
    (sendInterval budget pending).1 ::
      sendIntervals budget intervals (sendInterval budget pending).2

theorem isAncestorOrEqual_iff (a b : OctalCode) :
    isAncestorOrEqual a b = true ↔ EqualsOrDescends b a := by
  induction a generalizing b with
  | nil => simp [isAncestorOrEqual, EqualsOrDescends]
  | cons x a ih =>
    cases b with
    | nil => simp [isAncestorOrEqual, EqualsOrDescends]
    | cons y b =>
      simp only [isAncestorOrEqual, Bool.and_eq_true, beq_iff_eq, ih, EqualsOrDescends]
      constructor
      · rintro ⟨rfl, t, rfl⟩
        exact ⟨t, rfl⟩
      · rintro ⟨t, ht⟩
        simp only [List.cons_append, List.cons.injEq] at ht
        exact ⟨ht.1.symm, t, ht.2⟩

theorem isStrictAncestor_iff (a b : OctalCode) :
    isStrictAncestor a b = true ↔ StrictDescendant b a := by
  simp only [isStrictAncestor, Bool.and_eq_true, decide_eq_true_eq, isAncestorOrEqual_iff,
    EqualsOrDescends, StrictDescendant]
  constructor
  · rintro ⟨⟨t, rfl⟩, hlt⟩
    refine ⟨t, ?_, rfl⟩
    rintro rfl
    simp at hlt
  · rintro ⟨t, hne, rfl⟩
    refine ⟨⟨t, rfl⟩, ?_⟩
    have : 0 < t.length := List.length_pos.mpr hne
    simp only [List.length_append]
    omega

theorem JurisdictionMap.isValid_iff (J : JurisdictionMap) :
    J.isValid = true ↔ J.Valid := by
  simp [JurisdictionMap.isValid, JurisdictionMap.Valid, isStrictAncestor_iff]

theorem any_endNode_iff (J : JurisdictionMap) (A : OctalCode) :
    J.endNodes.any (fun E => isAncestorOrEqual E A) = true ↔ BelowCond J A := by
  simp [BelowCond, isAncestorOrEqual_iff]

/-- In a valid map no address is both ABOVE-conditioned and BELOW-conditioned. -/
theorem above_below_exclusive (J : JurisdictionMap) (A : OctalCode) (hJ : J.Valid)
    (ha : AboveCond J A) (hb : BelowCond J A) : False := by
  obtain ⟨t, ht⟩ := ha
  obtain ⟨E, hE, u, hu⟩ := hb
  obtain ⟨v, hv, hEv⟩ := hJ E hE
  have h1 := congrArg List.length ht
  have h2 := congrArg List.length hu
  have h3 := congrArg List.length hEv
  have h4 : 0 < v.length := List.length_pos.mpr hv
  simp only [List.length_append] at h1 h2 h3
  omega

/-! ## Classification -/

theorem isMyJurisdiction_of_above (unrelated : Area) (J : JurisdictionMap) (A : OctalCode)
    (hA : AboveCond J A) : J.isMyJurisdiction unrelated A = Area.ABOVE := by
  have h : isAncestorOrEqual A J.rootOctalCode = true := (isAncestorOrEqual_iff _ _).mpr hA
  simp [JurisdictionMap.isMyJurisdiction, h]

theorem not_above_of_strictDescendant (J : JurisdictionMap) (A : OctalCode)
    (hA : StrictDescendant A J.rootOctalCode) :
    isAncestorOrEqual A J.rootOctalCode = false := by
  cases hc : isAncestorOrEqual A J.rootOctalCode with
  | false => rfl
  | true =>
    exfalso
    obtain ⟨t, ht⟩ := (isAncestorOrEqual_iff _ _).mp hc
    obtain ⟨u, hu, hAu⟩ := hA
    have h1 := congrArg List.length ht
    have h2 := congrArg List.length hAu
    have h3 : 0 < u.length := List.length_pos.mpr hu
    simp only [List.length_append] at h1 h2
    omega

theorem isMyJurisdiction_of_within (unrelated : Area) (J : JurisdictionMap) (A : OctalCode)
    (hA : WithinCond J A) : J.isMyJurisdiction unrelated A = Area.WITHIN := by
  have h1 := not_above_of_strictDescendant J A hA.1
  have h2 : J.endNodes.any (fun E => isAncestorOrEqual E A) = false := by
    cases hc : J.endNodes.any (fun E => isAncestorOrEqual E A) with
    | false => rfl
    | true =>
      obtain ⟨E, hE, hAE⟩ := (any_endNode_iff J A).mp hc
      exact absurd hAE (hA.2 E hE)
  have h3 : isStrictAncestor J.rootOctalCode A = true := (isStrictAncestor_iff _ _).mpr hA.1
  simp [JurisdictionMap.isMyJurisdiction, h1, h2, h3]

theorem isMyJurisdiction_of_below (unrelated : Area) (J : JurisdictionMap) (A : OctalCode)
    (hJ : J.Valid) (hA : BelowCond J A) : J.isMyJurisdiction unrelated A = Area.BELOW := by
  have h1 : isAncestorOrEqual A J.rootOctalCode = false := by
    cases hc : isAncestorOrEqual A J.rootOctalCode with
    | false => rfl
    | true => exact (above_below_exclusive J A hJ ((isAncestorOrEqual_iff _ _).mp hc) hA).elim
  have h2 : J.endNodes.any (fun E => isAncestorOrEqual E A) = true :=
    (any_endNode_iff J A).mpr hA
  simp [JurisdictionMap.isMyJurisdiction, h1, h2]

/-- C1: in a jurisdiction map whose end nodes are all strict descendants of the root, an
address that equals some end node or descends from one is classified BELOW; in particular
each end node itself is classified BELOW, not WITHIN. -/
theorem isMyJurisdiction_below (unrelated : Area) (J : JurisdictionMap)
    (hJ : ∀ E ∈ J.endNodes, StrictDescendant E J.rootOctalCode) :
    (∀ A : OctalCode, (∃ E ∈ J.endNodes, EqualsOrDescends A E) →
        J.isMyJurisdiction unrelated A = Area.BELOW) ∧
    (∀ E ∈ J.endNodes, J.isMyJurisdiction unrelated E = Area.BELOW ∧
        J.isMyJurisdiction unrelated E ≠ Area.WITHIN) := by
  refine ⟨fun A hA => isMyJurisdiction_of_below unrelated J A hJ hA, fun E hE => ?_⟩
  have h := isMyJurisdiction_of_below unrelated J E hJ ⟨E, hE, [], by simp⟩
  rw [h]
  exact ⟨rfl, by decide⟩

/-- Witness for C1: root 04, end node 0460, addresses 046012 and 0460. -/
theorem isMyJurisdiction_below_witness :
    (JurisdictionMap.mk [0, 4] [[0, 4, 6, 0]]).isMyJurisdiction Area.ABOVE [0, 4, 6, 0, 1, 2]
        = Area.BELOW ∧
    (JurisdictionMap.mk [0, 4] [[0, 4, 6, 0]]).isMyJurisdiction Area.ABOVE [0, 4, 6, 0]
        = Area.BELOW :=
  have hJ : ∀ E ∈ (JurisdictionMap.mk [0, 4] [[0, 4, 6, 0]]).endNodes,
      StrictDescendant E (JurisdictionMap.mk [0, 4] [[0, 4, 6, 0]]).rootOctalCode :=
    (JurisdictionMap.isValid_iff _).mp (by decide)
  ⟨(isMyJurisdiction_below Area.ABOVE _ hJ).1 [0, 4, 6, 0, 1, 2]
      ⟨[0, 4, 6, 0], by simp, [1, 2], by simp⟩,
   ((isMyJurisdiction_below Area.ABOVE _ hJ).2 [0, 4, 6, 0] (by simp)).1⟩

/-- C2: an address that is a descendant of the root and neither equals nor descends from
any end node is classified WITHIN. -/
theorem isMyJurisdiction_within (unrelated : Area) (J : JurisdictionMap) (A : OctalCode)
    (hR : StrictDescendant A J.rootOctalCode)
    (hE : ∀ E ∈ J.endNodes, ¬ EqualsOrDescends A E) :
    J.isMyJurisdiction unrelated A = Area.WITHIN :=
  isMyJurisdiction_of_within unrelated J A ⟨hR, hE⟩

/-- Witness for C2: root 04, end node 0460, address 0461. -/
theorem isMyJurisdiction_within_witness :
    (JurisdictionMap.mk [0, 4] [[0, 4, 6, 0]]).isMyJurisdiction Area.ABOVE [0, 4, 6, 1]
        = Area.WITHIN :=
  isMyJurisdiction_within Area.ABOVE (JurisdictionMap.mk [0, 4] [[0, 4, 6, 0]]) [0, 4, 6, 1]
    ((isStrictAncestor_iff _ _).mp (by decide))
    (fun E hE hAE => by
      have hc := (any_endNode_iff (JurisdictionMap.mk [0, 4] [[0, 4, 6, 0]]) [0, 4, 6, 1]).mpr
        ⟨E, hE, hAE⟩
      revert hc
      decide)

/-- C3: an address that is a strict ancestor of the root, or equal to the root, is
classified ABOVE. -/
theorem isMyJurisdiction_above (unrelated : Area) (J : JurisdictionMap) (A : OctalCode)
    (hA : StrictDescendant J.rootOctalCode A ∨ A = J.rootOctalCode) :
    J.isMyJurisdiction unrelated A = Area.ABOVE := by
  apply isMyJurisdiction_of_above
  rcases hA with ⟨t, _, ht⟩ | rfl
  · exact ⟨t, ht⟩
  · exact ⟨[], by simp⟩

/-- Witness for C3: root 04, address 0. -/
theorem isMyJurisdiction_above_witness :
    (JurisdictionMap.mk [0, 4] [[0, 4, 6, 0]]).isMyJurisdiction Area.WITHIN [0] = Area.ABOVE :=
  isMyJurisdiction_above Area.WITHIN (JurisdictionMap.mk [0, 4] [[0, 4, 6, 0]]) [0]
    (Or.inl ((isStrictAncestor_iff _ _).mp (by decide)))

/-- C4: the map built from the strings "04" and "0460" classifies "046012" as BELOW,
"0461" as WITHIN and "0" as ABOVE. -/
theorem scenario_root04_end0460 (unrelated : Area) :
    ∃ J : JurisdictionMap,
      JurisdictionMap.fromHextStrings "04" "0460" = Except.ok J ∧
      classifyDigits unrelated J "046012" = some Area.BELOW ∧
      classifyDigits unrelated J "0461" = some Area.WITHIN ∧
      classifyDigits unrelated J "0" = some Area.ABOVE :=
  ⟨{ rootOctalCode := [0, 4], endNodes := [[0, 4, 6, 0]] }, rfl, rfl, rfl, rfl⟩

/-- C5 as stated fails: for the valid map with root 4 and no end node, the address 5
(neither an ancestor nor a descendant of the root) satisfies none of the three
conditions. -/
theorem areaConds_not_exhaustive :
    (JurisdictionMap.mk [4] []).Valid ∧
    ¬ (AboveCond (JurisdictionMap.mk [4] []) [5] ∨ WithinCond (JurisdictionMap.mk [4] []) [5] ∨
        BelowCond (JurisdictionMap.mk [4] []) [5]) := by
  refine ⟨(JurisdictionMap.isValid_iff _).mp (by decide), ?_⟩
  rintro (h | h | h)
  · have hc := (isAncestorOrEqual_iff _ _).mpr h
    revert hc
    decide
  · have hc := (isStrictAncestor_iff _ _).mpr h.1
    revert hc
    decide
  · obtain ⟨E, hE, _⟩ := h
    simp at hE

/-- C5, amended: for a valid map classification is total, a condition that holds for an
address is the area returned (so no two conditions hold together), and for an address on
the path of the root (an ancestor of the root, the root, or a descendant of it) the
condition of the area returned holds: such an address satisfies exactly one condition.
An address off the path of the root satisfies none of the three. -/
theorem areaConds_exclusive (unrelated : Area) (J : JurisdictionMap) (A : OctalCode)
    (hJ : J.Valid) :
    (∀ a : Area, AreaCond a J A → J.isMyJurisdiction unrelated A = a) ∧
    (∀ a b : Area, AreaCond a J A → AreaCond b J A → a = b) ∧
    (OnRootPath J A → ∀ a : Area, AreaCond a J A ↔ J.isMyJurisdiction unrelated A = a) ∧
    (¬ OnRootPath J A → ∀ a : Area, ¬ AreaCond a J A) := by
  have key : ∀ a : Area, AreaCond a J A → J.isMyJurisdiction unrelated A = a := by
    intro a ha
    cases a with
    | ABOVE => exact isMyJurisdiction_of_above unrelated J A ha
    | WITHIN => exact isMyJurisdiction_of_within unrelated J A ha
    | BELOW => exact isMyJurisdiction_of_below unrelated J A hJ ha
  refine ⟨key, fun a b ha hb => (key a ha).symm.trans (key b hb), fun hp a => ⟨key a, ?_⟩,
    fun hnp a ha => hnp ?_⟩
  · rintro rfl
    rcases hp with hp | hp
    · rw [isMyJurisdiction_of_above unrelated J A hp]
      exact hp
    · by_cases hb : BelowCond J A
      · rw [isMyJurisdiction_of_below unrelated J A hJ hb]
        exact hb
      · have hw : WithinCond J A := ⟨hp, fun E hE hAE => hb ⟨E, hE, hAE⟩⟩
        rw [isMyJurisdiction_of_within unrelated J A hw]
        exact hw
  · cases a with
    | ABOVE => exact Or.inl ha
    | WITHIN => exact Or.inr ha.1
    | BELOW =>
      obtain ⟨E, hE, u, hu⟩ := ha
      obtain ⟨v, hv, hEv⟩ := hJ E hE
      refine Or.inr ⟨v ++ u, by simp [hv], ?_⟩
      rw [hu, hEv, List.append_assoc]

/-- Witness for the amended C5: root 04, end node 0460, address 0461. -/
theorem areaConds_exclusive_witness :
    (JurisdictionMap.mk [0, 4] [[0, 4, 6, 0]]).Valid ∧
    OnRootPath (JurisdictionMap.mk [0, 4] [[0, 4, 6, 0]]) [0, 4, 6, 1] ∧
    (AreaCond Area.WITHIN (JurisdictionMap.mk [0, 4] [[0, 4, 6, 0]]) [0, 4, 6, 1] ↔
      (JurisdictionMap.mk [0, 4] [[0, 4, 6, 0]]).isMyJurisdiction Area.ABOVE [0, 4, 6, 1]
        = Area.WITHIN) :=
  have hJ : (JurisdictionMap.mk [0, 4] [[0, 4, 6, 0]]).Valid :=
    (JurisdictionMap.isValid_iff _).mp (by decide)
  have hp : OnRootPath (JurisdictionMap.mk [0, 4] [[0, 4, 6, 0]]) [0, 4, 6, 1] :=
    Or.inr ((isStrictAncestor_iff _ _).mp (by decide))
  ⟨hJ, hp, (areaConds_exclusive Area.ABOVE (JurisdictionMap.mk [0, 4] [[0, 4, 6, 0]])
    [0, 4, 6, 1] hJ).2.2.1 hp Area.WITHIN⟩

/-! ## Construction from two path strings -/

theorem octalDigit_eq_none (c : Char) (hc : c ∉ octalChars) : octalDigit c = none := by
  simp only [octalChars, List.mem_cons, List.mem_singleton, not_or, List.not_mem_nil,
    or_false] at hc
  obtain ⟨h0, h1, h2, h3, h4, h5, h6, h7⟩ := hc
  simp [octalDigit, h0, h1, h2, h3, h4, h5, h6, h7]

theorem octalDigits_eq_none (cs : List Char) (h : ∃ c ∈ cs, c ∉ octalChars) :
    octalDigits cs = none := by
  induction cs with
  | nil =>
    obtain ⟨c, hc, _⟩ := h
    simp at hc
  | cons d ds ih =>
    obtain ⟨c, hc, hno⟩ := h
    rcases List.mem_cons.mp hc with rfl | hmem
    · simp [octalDigits, octalDigit_eq_none c hno]
    · have hds := ih ⟨c, hmem, hno⟩
      simp only [octalDigits, hds]
      cases octalDigit d <;> rfl

theorem hexStringToOctalCode_eq_none (s : String)
    (h : (∃ c ∈ s.toList, c ∉ octalChars) ∨ s.length % 2 = 1) :
    hexStringToOctalCode s = none := by
  unfold hexStringToOctalCode
  split
  · rfl
  · rcases h with h | h
    · exact octalDigits_eq_none _ h
    · contradiction

theorem fromHextStrings_eq_error_of_none (r e : String)
    (h : hexStringToOctalCode r = none ∨ hexStringToOctalCode e = none) :
    JurisdictionMap.fromHextStrings r e
      = Except.error JurisdictionError.MalformedJurisdiction := by
  unfold JurisdictionMap.fromHextStrings
  rcases h with h | h
  · rw [h]
  · rw [h]
    cases hexStringToOctalCode r <;> rfl

/-- C8: construction from a root string and an end-node string fails with
`MalformedJurisdiction` when either string holds a character that is not an octal digit,
when either string has odd length, and when the end node decoded is not a strict
descendant of the root decoded; every map constructed has all its end nodes strictly
below its root. -/
theorem fromHextStrings_malformed (r e : String) :
    ((∃ c ∈ r.toList ++ e.toList, c ∉ octalChars) →
      JurisdictionMap.fromHextStrings r e
        = Except.error JurisdictionError.MalformedJurisdiction) ∧
    ((r.length % 2 = 1 ∨ e.length % 2 = 1) →
      JurisdictionMap.fromHextStrings r e
        = Except.error JurisdictionError.MalformedJurisdiction) ∧
    (∀ R E : OctalCode, hexStringToOctalCode r = some R → hexStringToOctalCode e = some E →
      ¬ StrictDescendant E R →
      JurisdictionMap.fromHextStrings r e
        = Except.error JurisdictionError.MalformedJurisdiction) ∧
    (∀ J : JurisdictionMap, JurisdictionMap.fromHextStrings r e = Except.ok J →
      ∀ E ∈ J.endNodes, StrictDescendant E J.rootOctalCode) := by
  refine ⟨?_, ?_, ?_, ?_⟩
  · rintro ⟨c, hc, hno⟩
    apply fromHextStrings_eq_error_of_none
    rcases List.mem_append.mp hc with hc | hc
    · exact Or.inl (hexStringToOctalCode_eq_none r (Or.inl ⟨c, hc, hno⟩))
    · exact Or.inr (hexStringToOctalCode_eq_none e (Or.inl ⟨c, hc, hno⟩))
  · intro h
    apply fromHextStrings_eq_error_of_none
    rcases h with h | h
    · exact Or.inl (hexStringToOctalCode_eq_none r (Or.inr h))
    · exact Or.inr (hexStringToOctalCode_eq_none e (Or.inr h))
  · intro R E hR hE hno
    have hs : isStrictAncestor R E = false := by
      cases hc : isStrictAncestor R E with
      | false => rfl
      | true => exact absurd ((isStrictAncestor_iff _ _).mp hc) hno
    simp [JurisdictionMap.fromHextStrings, hR, hE, hs]
  · intro J hJ
    unfold JurisdictionMap.fromHextStrings at hJ
    split at hJ
    · rename_i R E _ _
      split at hJ
      · rename_i hs
        cases hJ
        intro E2 hE2
        simp only [List.mem_singleton] at hE2
        subst hE2
        exact (isStrictAncestor_iff _ _).mp hs
      · cases hJ
    · cases hJ

/-- Witness for C8: a string with the character g, a string of odd length, an end node
equal to the root, and the map built from "04" and "0460". -/
theorem fromHextStrings_malformed_witness :
    JurisdictionMap.fromHextStrings "0g" "0460"
      = Except.error JurisdictionError.MalformedJurisdiction ∧
    JurisdictionMap.fromHextStrings "04" "046"
      = Except.error JurisdictionError.MalformedJurisdiction ∧
    JurisdictionMap.fromHextStrings "04" "04"
      = Except.error JurisdictionError.MalformedJurisdiction ∧
    (∀ E ∈ (JurisdictionMap.mk [0, 4] [[0, 4, 6, 0]]).endNodes,
      StrictDescendant E (JurisdictionMap.mk [0, 4] [[0, 4, 6, 0]]).rootOctalCode) :=
  ⟨(fromHextStrings_malformed "0g" "0460").1 ⟨'g', by decide, by decide⟩,
   (fromHextStrings_malformed "04" "046").2.1 (Or.inr (by decide)),
   (fromHextStrings_malformed "04" "04").2.2.1 [0, 4] [0, 4] rfl rfl
     (fun h => absurd ((isStrictAncestor_iff _ _).mpr h) (by decide)),
   (fromHextStrings_malformed "04" "0460").2.2.2 (JurisdictionMap.mk [0, 4] [[0, 4, 6, 0]]) rfl⟩

/-! ## Wire format -/

theorem readSteps_map_val (code : OctalCode) : readSteps (code.map Fin.val) = some code := by
  induction code with
  | nil => rfl
  | cons d ds ih => simp [readSteps, ih]

theorem unpackOctalCode_pack (code : OctalCode) (tail : List Nat) :
    unpackOctalCode (packOctalCode code ++ tail) = some (code, tail) := by
  have h1 : (List.map Fin.val code ++ tail).take code.length = List.map Fin.val code := by
    rw [List.take_append_of_le_length (by simp)]
    exact List.take_of_length_le (by simp)
  have h2 : (List.map Fin.val code ++ tail).drop code.length = tail := by
    rw [List.drop_append_of_le_length (by simp)]
    simp [List.drop_of_length_le]
  simp only [packOctalCode, List.cons_append, unpackOctalCode, List.length_append,
    List.length_map, h1, h2, readSteps_map_val]
  simp

theorem unpackEndNodes_pack (codes : List OctalCode) (tail : List Nat) :
    unpackEndNodes codes.length ((codes.map packOctalCode).flatten ++ tail)
      = some (codes, tail) := by
  induction codes with
  | nil => rfl
  | cons c cs ih =>
    simp only [List.length_cons, List.map_cons, List.flatten_cons, List.append_assoc,
      unpackEndNodes, unpackOctalCode_pack, ih]

theorem unpackFromMessage_pack_append (J : JurisdictionMap) (tail : List Nat) :
    unpackFromMessage (J.packIntoMessage ++ tail)
      = some (some J, J.packIntoMessage.length) := by
  simp only [unpackFromMessage, JurisdictionMap.packIntoMessage, List.append_assoc,
    List.cons_append, unpackOctalCode_pack, unpackEndNodes_pack, List.length_append,
    List.length_cons]
  simp only [List.length_flatten, List.map_map, Option.some.injEq, Prod.mk.injEq, true_and]
  omega

/-- C6: unpacking the bytes written by packing a jurisdiction map (followed by whatever
else the buffer holds) yields a map with the same root address and the same end-node
addresses in the same order, and reads as many bytes as were written. -/
theorem unpackFromMessage_packIntoMessage (J : JurisdictionMap) (tail : List Nat) :
    unpackFromMessage J.packIntoMessage = some (some J, J.packIntoMessage.length) ∧
    unpackFromMessage (J.packIntoMessage ++ tail)
      = some (some J, J.packIntoMessage.length) := by
  refine ⟨?_, unpackFromMessage_pack_append J tail⟩
  have h := unpackFromMessage_pack_append J []
  rwa [List.append_nil] at h

/-- C7: the bytes of the empty-jurisdiction sentinel differ from the bytes packed for any
jurisdiction map, and unpacking tells the two apart: the sentinel reads as "unknown", the
packed bytes read as the map. -/
theorem packEmptyJurisdictionIntoMessage_ne_pack (J : JurisdictionMap) :
    packEmptyJurisdictionIntoMessage ≠ J.packIntoMessage ∧
    unpackFromMessage packEmptyJurisdictionIntoMessage = some (none, 1) ∧
    unpackFromMessage J.packIntoMessage = some (some J, J.packIntoMessage.length) := by
  refine ⟨?_, rfl, ?_⟩
  · intro h
    have hl := congrArg List.length h
    simp [packEmptyJurisdictionIntoMessage, JurisdictionMap.packIntoMessage,
      packOctalCode] at hl
  · have h := unpackFromMessage_pack_append J []
    rwa [List.append_nil] at h

/-! ## The receive loop -/

theorem dispatchPacket_jurisdictionSender_isSome (h : PacketHeaders) (p : ReceivedPacket)
    (s : ServerState) (hs : s.jurisdictionSender.isSome = true) :
    (dispatchPacket h p s).jurisdictionSender.isSome = true := by
  unfold dispatchPacket
  simp only
  split_ifs
  · exact hs
  · exact hs
  · exact hs
  · cases hjs : s.jurisdictionSender with
    | none => simp [hjs] at hs
    | some js => rfl
  · cases s.voxelServerPacketProcessor with
    | none => exact hs
    | some pp => exact hs

theorem loopIteration_jurisdictionSender_isSome (h : PacketHeaders) (s : ServerState)
    (i : LoopInput) (hs : s.jurisdictionSender.isSome = true) :
    (loopIteration h s i).jurisdictionSender.isSome = true := by
  have h1 : (domainServerCheckIn i.checkInDue i.now s).jurisdictionSender.isSome = true := by
    unfold domainServerCheckIn
    split <;> exact hs
  unfold loopIteration receiveAndDispatch
  split
  · exact h1
  · split
    · exact dispatchPacket_jurisdictionSender_isSome h _ _ h1
    · exact h1

theorem runLoop_jurisdictionSender_isSome (h : PacketHeaders) (inputs : List LoopInput)
    (s : ServerState) (hs : s.jurisdictionSender.isSome = true) :
    (runLoop h inputs s).jurisdictionSender.isSome = true := by
  induction inputs generalizing s with
  | nil => exact hs
  | cons i is ih =>
    exact ih (loopIteration h s i) (loopIteration_jurisdictionSender_isSome h s i hs)

/-- C9: a received packet whose version does not match is dropped: the receive step
leaves the server state as it was (no call on the node list, nothing queued to the
jurisdiction sender or to the packet processor, nothing sent), and the whole iteration
ends in the state it ends in when nothing is received. -/
theorem versionMismatch_dropped (h : PacketHeaders) (p : ReceivedPacket) (s : ServerState)
    (hv : h.packetVersionMatch p.packetData = false) :
    receiveAndDispatch h (some p) s = s ∧
    ∀ (checkInDue : Bool) (now : Nat),
      loopIteration h s ⟨checkInDue, now, some p⟩ = loopIteration h s ⟨checkInDue, now, none⟩ := by
  constructor
  · simp [receiveAndDispatch, hv]
  · intro c n
    simp [loopIteration, receiveAndDispatch, hv]

/-- Witness for C9: a jurisdiction-request packet with version byte 2 where 1 is
expected, received right after startup. -/
theorem versionMismatch_dropped_witness :
    sampleHeaders.packetVersionMatch [106, 2, 9] = false ∧
    receiveAndDispatch sampleHeaders (some ⟨5, [106, 2, 9], 3⟩) (serverStart none)
      = serverStart none :=
  ⟨rfl, (versionMismatch_dropped sampleHeaders ⟨5, [106, 2, 9], 3⟩ (serverStart none) rfl).1⟩

/-- C10: in every state the server loop reaches, a version-matching packet whose type
byte is the jurisdiction-request type is appended to the queue of the jurisdiction sender
as received (sender address, bytes and length unchanged); the packet processor and the
rest of the state are left as they were. -/
theorem jurisdictionRequest_queued (h : PacketHeaders) (jurisdiction : Option JurisdictionMap)
    (inputs : List LoopInput) (p : ReceivedPacket)
    (hHead : h.PACKET_TYPE_VOXEL_JURISDICTION_REQUEST ≠ h.PACKET_TYPE_HEAD_DATA)
    (hPing : h.PACKET_TYPE_VOXEL_JURISDICTION_REQUEST ≠ h.PACKET_TYPE_PING)
    (hDomain : h.PACKET_TYPE_VOXEL_JURISDICTION_REQUEST ≠ h.PACKET_TYPE_DOMAIN)
    (hv : h.packetVersionMatch p.packetData = true)
    (ht : packetType p.packetData = h.PACKET_TYPE_VOXEL_JURISDICTION_REQUEST) :
    ∃ js : JurisdictionSender,
      (runLoop h inputs (serverStart jurisdiction)).jurisdictionSender = some js ∧
      receiveAndDispatch h (some p) (runLoop h inputs (serverStart jurisdiction))
        = { runLoop h inputs (serverStart jurisdiction) with
            jurisdictionSender :=
              some { js with receivedPackets := js.receivedPackets ++ [p] } } ∧
      (receiveAndDispatch h (some p)
          (runLoop h inputs (serverStart jurisdiction))).voxelServerPacketProcessor
        = (runLoop h inputs (serverStart jurisdiction)).voxelServerPacketProcessor := by
  have hsome := runLoop_jurisdictionSender_isSome h inputs (serverStart jurisdiction) rfl
  generalize runLoop h inputs (serverStart jurisdiction) = s at hsome ⊢
  cases hjs : s.jurisdictionSender with
  | none => simp [hjs] at hsome
  | some js =>
    refine ⟨js, rfl, ?_⟩
    have hstep : receiveAndDispatch h (some p) s
        = { s with
            jurisdictionSender :=
              some { js with receivedPackets := js.receivedPackets ++ [p] } } := by
      simp [receiveAndDispatch, hv, dispatchPacket, ht, hHead, hPing, hDomain, hjs,
        JurisdictionSender.queueReceivedPacket]
    exact ⟨hstep, by rw [hstep]⟩

/-- Witness for C10: a jurisdiction request from address 5 received right after startup. -/
theorem jurisdictionRequest_queued_witness :
    sampleHeaders.packetVersionMatch [106, 1, 9] = true ∧
    packetType [106, 1, 9] = sampleHeaders.PACKET_TYPE_VOXEL_JURISDICTION_REQUEST ∧
    ∃ js : JurisdictionSender,
      (runLoop sampleHeaders [] (serverStart none)).jurisdictionSender = some js ∧
      receiveAndDispatch sampleHeaders (some ⟨5, [106, 1, 9], 3⟩)
          (runLoop sampleHeaders [] (serverStart none))
        = { runLoop sampleHeaders [] (serverStart none) with
            jurisdictionSender :=
              some { js with receivedPackets := js.receivedPackets ++ [⟨5, [106, 1, 9], 3⟩] } } ∧
      (receiveAndDispatch sampleHeaders (some ⟨5, [106, 1, 9], 3⟩)
          (runLoop sampleHeaders [] (serverStart none))).voxelServerPacketProcessor
        = (runLoop sampleHeaders [] (serverStart none)).voxelServerPacketProcessor :=
  ⟨rfl, rfl, jurisdictionRequest_queued sampleHeaders none [] ⟨5, [106, 1, 9], 3⟩
    (by decide) (by decide) (by decide) rfl rfl⟩

/-- C11 as stated fails: a version-matching head-data packet received right after startup
is not queued to the packet processor, whose queue stays empty; it is handed to the node
list. -/
theorem headData_not_queued_to_processor :
    sampleHeaders.packetVersionMatch [72, 1, 9] = true ∧
    packetType [72, 1, 9] = sampleHeaders.PACKET_TYPE_HEAD_DATA ∧
    processorQueue
      (receiveAndDispatch sampleHeaders (some ⟨5, [72, 1, 9], 3⟩) (serverStart none)) = [] ∧
    (receiveAndDispatch sampleHeaders (some ⟨5, [72, 1, 9], 3⟩) (serverStart none)).nodeListCalls
      = [NodeListCall.addOrUpdateNode 5 5 73 9, NodeListCall.updateNodeWithData [72, 1, 9] 3] := by
  decide

/-- C11, amended: a version-matching head-data packet is handled by the receive loop
itself: the node list is asked to add or update the node of the sender (as an agent, with
the identifier unpacked after the packet header) and then to update that node with the
packet; nothing is queued to the packet processor or to the jurisdiction sender. -/
theorem headData_to_nodeList (h : PacketHeaders) (p : ReceivedPacket) (s : ServerState)
    (hv : h.packetVersionMatch p.packetData = true)
    (ht : packetType p.packetData = h.PACKET_TYPE_HEAD_DATA) :
    receiveAndDispatch h (some p) s
      = { s with
          nodeListCalls := s.nodeListCalls ++
            [NodeListCall.addOrUpdateNode p.senderAddress p.senderAddress h.NODE_TYPE_AGENT
               (h.unpackNodeId (p.packetData.drop (h.numBytesForPacketHeader p.packetData))),
             NodeListCall.updateNodeWithData p.packetData p.packetLength] } ∧
    (receiveAndDispatch h (some p) s).voxelServerPacketProcessor
      = s.voxelServerPacketProcessor ∧
    (receiveAndDispatch h (some p) s).jurisdictionSender = s.jurisdictionSender := by
  have hstep : receiveAndDispatch h (some p) s
      = { s with
          nodeListCalls := s.nodeListCalls ++
            [NodeListCall.addOrUpdateNode p.senderAddress p.senderAddress h.NODE_TYPE_AGENT
               (h.unpackNodeId (p.packetData.drop (h.numBytesForPacketHeader p.packetData))),
             NodeListCall.updateNodeWithData p.packetData p.packetLength] } := by
    simp [receiveAndDispatch, hv, dispatchPacket, ht]
  exact ⟨hstep, by rw [hstep], by rw [hstep]⟩

/-- Witness for the amended C11: a head-data packet from address 5 with node identifier 9,
received right after startup. -/
theorem headData_to_nodeList_witness :
    sampleHeaders.packetVersionMatch [72, 1, 9] = true ∧
    packetType [72, 1, 9] = sampleHeaders.PACKET_TYPE_HEAD_DATA ∧
    (receiveAndDispatch sampleHeaders (some ⟨5, [72, 1, 9], 3⟩)
        (serverStart none)).voxelServerPacketProcessor
      = (serverStart none).voxelServerPacketProcessor :=
  ⟨rfl, rfl,
   (headData_to_nodeList sampleHeaders ⟨5, [72, 1, 9], 3⟩ (serverStart none) rfl rfl).2.1⟩

theorem dispatchPacket_other (h : PacketHeaders) (p : ReceivedPacket) (s : ServerState)
    (hHead : packetType p.packetData ≠ h.PACKET_TYPE_HEAD_DATA)
    (hPing : packetType p.packetData ≠ h.PACKET_TYPE_PING)
    (hDomain : packetType p.packetData ≠ h.PACKET_TYPE_DOMAIN)
    (hJur : packetType p.packetData ≠ h.PACKET_TYPE_VOXEL_JURISDICTION_REQUEST) :
    dispatchPacket h p s =
      match s.voxelServerPacketProcessor with
      | some pp =>
        { s with
          voxelServerPacketProcessor :=
            some { pp with receivedPackets := pp.receivedPackets ++ [p] } }
      | none =>
        { s with unknownPacketLines := s.unknownPacketLines ++ [packetType p.packetData] } := by
  simp only [dispatchPacket, hHead, hPing, hDomain, hJur, if_false]
  cases s.voxelServerPacketProcessor <;> rfl

/-- C12: a version-matching packet whose type is none of head-data, ping, domain and
jurisdiction-request is appended to the queue of the packet processor as received
(sender address, bytes and length unchanged) whenever the processor exists; the rest of
the state is left as it was. -/
theorem otherPacket_queued (h : PacketHeaders) (p : ReceivedPacket) (s : ServerState)
    (pp : VoxelServerPacketProcessor)
    (hv : h.packetVersionMatch p.packetData = true)
    (hHead : packetType p.packetData ≠ h.PACKET_TYPE_HEAD_DATA)
    (hPing : packetType p.packetData ≠ h.PACKET_TYPE_PING)
    (hDomain : packetType p.packetData ≠ h.PACKET_TYPE_DOMAIN)
    (hJur : packetType p.packetData ≠ h.PACKET_TYPE_VOXEL_JURISDICTION_REQUEST)
    (hpp : s.voxelServerPacketProcessor = some pp) :
    receiveAndDispatch h (some p) s
      = { s with
          voxelServerPacketProcessor :=
            some { pp with receivedPackets := pp.receivedPackets ++ [p] } } := by
  simp only [receiveAndDispatch, hv, if_true]
  rw [dispatchPacket_other h p s hHead hPing hDomain hJur, hpp]

/-- Witness for C12: a packet of type 83 from address 5, received right after startup. -/
theorem otherPacket_queued_witness :
    sampleHeaders.packetVersionMatch [83, 1, 4] = true ∧
    receiveAndDispatch sampleHeaders (some ⟨5, [83, 1, 4], 3⟩) (serverStart none)
      = { serverStart none with
          voxelServerPacketProcessor :=
            some { initialized := true, receivedPackets := [⟨5, [83, 1, 4], 3⟩] } } :=
  ⟨rfl, otherPacket_queued sampleHeaders ⟨5, [83, 1, 4], 3⟩ (serverStart none)
    { initialized := true, receivedPackets := [] } rfl (by decide) (by decide) (by decide)
    (by decide) rfl⟩

/-- What no branch of the dispatch touches: the global `jurisdiction`, the counter
`receivedPacketCount`, and the jurisdiction held by the jurisdiction sender. -/
theorem dispatchPacket_untouched (h : PacketHeaders) (p : ReceivedPacket) (s : ServerState) :
    (dispatchPacket h p s).jurisdiction = s.jurisdiction ∧
    (dispatchPacket h p s).receivedPacketCount = s.receivedPacketCount ∧
    (dispatchPacket h p s).jurisdictionSender.map (fun js => js.jurisdiction)
      = s.jurisdictionSender.map (fun js => js.jurisdiction) := by
  unfold dispatchPacket
  simp only
  split_ifs
  · exact ⟨rfl, rfl, rfl⟩
  · exact ⟨rfl, rfl, rfl⟩
  · exact ⟨rfl, rfl, rfl⟩
  · cases hjs : s.jurisdictionSender with
    | none => simp [hjs]
    | some js => simp [hjs, JurisdictionSender.queueReceivedPacket]
  · cases s.voxelServerPacketProcessor with
    | none => exact ⟨rfl, rfl, rfl⟩
    | some pp => exact ⟨rfl, rfl, rfl⟩

theorem loopIteration_untouched (h : PacketHeaders) (s : ServerState) (i : LoopInput) :
    (loopIteration h s i).jurisdiction = s.jurisdiction ∧
    (loopIteration h s i).receivedPacketCount = s.receivedPacketCount ∧
    (loopIteration h s i).jurisdictionSender.map (fun js => js.jurisdiction)
      = s.jurisdictionSender.map (fun js => js.jurisdiction) := by
  have h1 : (domainServerCheckIn i.checkInDue i.now s).jurisdiction = s.jurisdiction ∧
      (domainServerCheckIn i.checkInDue i.now s).receivedPacketCount = s.receivedPacketCount ∧
      (domainServerCheckIn i.checkInDue i.now s).jurisdictionSender = s.jurisdictionSender := by
    unfold domainServerCheckIn
    split <;> exact ⟨rfl, rfl, rfl⟩
  unfold loopIteration receiveAndDispatch
  split
  · exact ⟨h1.1, h1.2.1, by rw [h1.2.2]⟩
  · split
    · have h2 := dispatchPacket_untouched h (by assumption)
        (domainServerCheckIn i.checkInDue i.now s)
      exact ⟨h2.1.trans h1.1, h2.2.1.trans h1.2.1, by rw [h2.2.2, h1.2.2]⟩
    · exact ⟨h1.1, h1.2.1, by rw [h1.2.2]⟩

theorem runLoop_untouched (h : PacketHeaders) (inputs : List LoopInput) (s : ServerState) :
    (runLoop h inputs s).jurisdiction = s.jurisdiction ∧
    (runLoop h inputs s).receivedPacketCount = s.receivedPacketCount ∧
    (runLoop h inputs s).jurisdictionSender.map (fun js => js.jurisdiction)
      = s.jurisdictionSender.map (fun js => js.jurisdiction) := by
  induction inputs generalizing s with
  | nil => exact ⟨rfl, rfl, rfl⟩
  | cons i is ih =>
    have h1 := loopIteration_untouched h s i
    have h2 := ih (loopIteration h s i)
    exact ⟨h2.1.trans h1.1, h2.2.1.trans h1.2.1, h2.2.2.trans h1.2.2⟩

/-- The queue of the packet processor after the dispatch of a packet. -/
theorem dispatchPacket_processorQueue (h : PacketHeaders) (p : ReceivedPacket)
    (s : ServerState) (pp : VoxelServerPacketProcessor)
    (hv : h.packetVersionMatch p.packetData = true)
    (hpp : s.voxelServerPacketProcessor = some pp) :
    (dispatchPacket h p s).voxelServerPacketProcessor
      = some { pp with
          receivedPackets := pp.receivedPackets ++ [p].filter (routedToProcessor h) } := by
  by_cases hHead : packetType p.packetData = h.PACKET_TYPE_HEAD_DATA
  · have hr : routedToProcessor h p = false := by simp [routedToProcessor, hHead]
    simp only [dispatchPacket, if_pos hHead, hpp, List.filter_cons, hr, List.filter_nil,
      List.append_nil]
    simp
  · by_cases hPing : packetType p.packetData = h.PACKET_TYPE_PING
    · have hr : routedToProcessor h p = false := by simp [routedToProcessor, hPing]
      simp only [dispatchPacket, if_neg hHead, if_pos hPing, hpp, List.filter_cons, hr,
        List.filter_nil, List.append_nil]
      simp
    · by_cases hDomain : packetType p.packetData = h.PACKET_TYPE_DOMAIN
      · have hr : routedToProcessor h p = false := by simp [routedToProcessor, hDomain]
        simp only [dispatchPacket, if_neg hHead, if_neg hPing, if_pos hDomain, hpp,
          List.filter_cons, hr, List.filter_nil, List.append_nil]
        simp
      · by_cases hJur : packetType p.packetData = h.PACKET_TYPE_VOXEL_JURISDICTION_REQUEST
        · have hr : routedToProcessor h p = false := by simp [routedToProcessor, hJur]
          simp only [dispatchPacket, if_neg hHead, if_neg hPing, if_neg hDomain, if_pos hJur,
            List.filter_cons, hr, List.filter_nil, List.append_nil]
          cases s.jurisdictionSender with
          | none => simp [hpp]
          | some js => simp [hpp]
        · have hr : routedToProcessor h p = true := by
            simp [routedToProcessor, hv, hHead, hPing, hDomain, hJur]
          rw [dispatchPacket_other h p s hHead hPing hDomain hJur, hpp]
          simp [hr]

/-- The packets one iteration adds to the queue of the packet processor. -/
theorem loopIteration_processorQueue (h : PacketHeaders) (s : ServerState) (i : LoopInput)
    (hs : s.voxelServerPacketProcessor.isSome = true) :
    (loopIteration h s i).voxelServerPacketProcessor.isSome = true ∧
    processorQueue (loopIteration h s i)
      = processorQueue s ++ (arrivals [i]).filter (routedToProcessor h) := by
  obtain ⟨pp, hpp⟩ := Option.isSome_iff_exists.mp hs
  have h1 : (domainServerCheckIn i.checkInDue i.now s).voxelServerPacketProcessor = some pp := by
    unfold domainServerCheckIn
    split <;> exact hpp
  have key : ∃ added : List ReceivedPacket,
      added = (arrivals [i]).filter (routedToProcessor h) ∧
      (loopIteration h s i).voxelServerPacketProcessor
        = some { pp with receivedPackets := pp.receivedPackets ++ added } := by
    refine ⟨_, rfl, ?_⟩
    cases hr : i.received with
    | none =>
      have ha : arrivals [i] = [] := by simp [arrivals, hr]
      simp only [loopIteration, receiveAndDispatch, hr, ha, List.filter_nil, List.append_nil]
      exact h1
    | some p =>
      have ha : arrivals [i] = [p] := by simp [arrivals, hr]
      cases hv : h.packetVersionMatch p.packetData with
      | false =>
        have hrt : routedToProcessor h p = false := by simp [routedToProcessor, hv]
        simp only [loopIteration, receiveAndDispatch, hr, ha, hv, List.filter_cons, hrt,
          List.filter_nil, List.append_nil]
        simpa using h1
      | true =>
        simp only [loopIteration, receiveAndDispatch, hr, ha, hv, if_true]
        exact dispatchPacket_processorQueue h p _ pp hv h1
  obtain ⟨added, hadd, hproc⟩ := key
  refine ⟨by rw [hproc]; rfl, ?_⟩
  simp only [processorQueue, hproc, hpp, hadd]

theorem runLoop_processorQueue (h : PacketHeaders) (inputs : List LoopInput) (s : ServerState)
    (hs : s.voxelServerPacketProcessor.isSome = true) :
    processorQueue (runLoop h inputs s)
      = processorQueue s ++ (arrivals inputs).filter (routedToProcessor h) := by
  induction inputs generalizing s with
  | nil => simp [runLoop, arrivals]
  | cons i is ih =>
    have h1 := loopIteration_processorQueue h s i hs
    have h2 := ih (loopIteration h s i) h1.1
    have hsplit : arrivals (i :: is) = arrivals [i] ++ arrivals is := by
      simp only [arrivals]
      rw [← List.filterMap_append]
      rfl
    have hrun : runLoop h (i :: is) s = runLoop h is (loopIteration h s i) := rfl
    rw [hrun, h2, h1.2, hsplit, List.filter_append, List.append_assoc]

/-- C14: over any run of the loop from startup, the queue of the packet processor holds
exactly the received packets the loop routes to it (version matching, type none of
head-data, ping, domain and jurisdiction-request), in their arrival order; it is a
subsequence of the arrivals, and so is the part of it that comes from any one sender. -/
theorem processorQueue_in_arrival_order (h : PacketHeaders)
    (jurisdiction : Option JurisdictionMap) (inputs : List LoopInput) :
    processorQueue (runLoop h inputs (serverStart jurisdiction))
      = (arrivals inputs).filter (routedToProcessor h) ∧
    List.Sublist (processorQueue (runLoop h inputs (serverStart jurisdiction)))
      (arrivals inputs) ∧
    (∀ sender : Nat,
      (processorQueue (runLoop h inputs (serverStart jurisdiction))).filter
          (fun p => decide (p.senderAddress = sender))
        = (((arrivals inputs).filter (fun p => decide (p.senderAddress = sender))).filter
            (routedToProcessor h))) := by
  have hq := runLoop_processorQueue h inputs (serverStart jurisdiction) rfl
  have hq0 : processorQueue (serverStart jurisdiction) = [] := rfl
  rw [hq0, List.nil_append] at hq
  rw [hq]
  refine ⟨rfl, List.filter_sublist _, fun sender => ?_⟩
  simp only [List.filter_filter]
  congr 1
  funext p
  exact Bool.and_comm _ _

/-! ## The inbound packet processor -/

theorem dispatchPacket_unknownPacketLines (h : PacketHeaders) (p : ReceivedPacket)
    (s : ServerState) (hs : s.voxelServerPacketProcessor.isSome = true) :
    (dispatchPacket h p s).voxelServerPacketProcessor.isSome = true ∧
    (dispatchPacket h p s).unknownPacketLines = s.unknownPacketLines := by
  obtain ⟨pp, hpp⟩ := Option.isSome_iff_exists.mp hs
  unfold dispatchPacket
  simp only
  split_ifs
  · exact ⟨hs, rfl⟩
  · exact ⟨hs, rfl⟩
  · exact ⟨hs, rfl⟩
  · cases s.jurisdictionSender with
    | none => exact ⟨hs, rfl⟩
    | some js => exact ⟨hs, rfl⟩
  · rw [hpp]
    exact ⟨rfl, rfl⟩

theorem loopIteration_unknownPacketLines (h : PacketHeaders) (s : ServerState) (i : LoopInput)
    (hs : s.voxelServerPacketProcessor.isSome = true) :
    (loopIteration h s i).voxelServerPacketProcessor.isSome = true ∧
    (loopIteration h s i).unknownPacketLines = s.unknownPacketLines := by
  have h1 : (domainServerCheckIn i.checkInDue i.now s).voxelServerPacketProcessor.isSome = true ∧
      (domainServerCheckIn i.checkInDue i.now s).unknownPacketLines = s.unknownPacketLines := by
    unfold domainServerCheckIn
    split <;> exact ⟨hs, rfl⟩
  unfold loopIteration receiveAndDispatch
  split
  · exact h1
  · split
    · have h2 := dispatchPacket_unknownPacketLines h (by assumption)
        (domainServerCheckIn i.checkInDue i.now s) h1.1
      exact ⟨h2.1, h2.2.trans h1.2⟩
    · exact h1

theorem runLoop_unknownPacketLines (h : PacketHeaders) (inputs : List LoopInput)
    (s : ServerState) (hs : s.voxelServerPacketProcessor.isSome = true) :
    (runLoop h inputs s).voxelServerPacketProcessor.isSome = true ∧
    (runLoop h inputs s).unknownPacketLines = s.unknownPacketLines := by
  induction inputs generalizing s with
  | nil => exact ⟨hs, rfl⟩
  | cons i is ih =>
    have h1 := loopIteration_unknownPacketLines h s i hs
    have h2 := ih (loopIteration h s i) h1.1
    exact ⟨h2.1, h2.2.trans h1.2⟩

theorem processPacket_unrecognized (table : PacketTable) (ipp : InboundPacketProcessor)
    (p : ReceivedPacket) (hp : table.routeOfType (packetType p.packetData) = none) :
    ipp.processPacket table p = { ipp with unrecognizedCount := ipp.unrecognizedCount + 1 } := by
  simp only [InboundPacketProcessor.processPacket, hp]

theorem processPacket_recognized (table : PacketTable) (ipp : InboundPacketProcessor)
    (p : ReceivedPacket) (route : PacketRoute)
    (hp : table.routeOfType (packetType p.packetData) = some route) :
    (ipp.processPacket table p).unrecognizedCount = ipp.unrecognizedCount ∧
    ((ipp.processPacket table p).handled = ipp.handled ∨
      (ipp.processPacket table p).handled = ipp.handled ++ [(route, p)]) := by
  simp only [InboundPacketProcessor.processPacket, hp]
  split
  · exact ⟨rfl, Or.inl rfl⟩
  · exact ⟨rfl, Or.inr rfl⟩

theorem drain_unrecognizedCount (table : PacketTable) (queue : List ReceivedPacket)
    (ipp : InboundPacketProcessor) :
    (ipp.drain table queue).unrecognizedCount
      = ipp.unrecognizedCount + (queue.filter (unrecognizedType table)).length := by
  induction queue generalizing ipp with
  | nil => rfl
  | cons p queue ih =>
    have hstep : ipp.drain table (p :: queue) = (ipp.processPacket table p).drain table queue :=
      rfl
    rw [hstep, ih]
    cases hp : table.routeOfType (packetType p.packetData) with
    | none =>
      have hu : unrecognizedType table p = true := by simp [unrecognizedType, hp]
      rw [processPacket_unrecognized table ipp p hp, List.filter_cons_of_pos hu,
        List.length_cons]
      simp only
      omega
    | some route =>
      have hu : ¬ (unrecognizedType table p = true) := by simp [unrecognizedType, hp]
      rw [(processPacket_recognized table ipp p route hp).1, List.filter_cons_of_neg hu]

theorem drain_handled (table : PacketTable) (queue : List ReceivedPacket)
    (ipp : InboundPacketProcessor) :
    ∀ entry ∈ (ipp.drain table queue).handled,
      entry ∈ ipp.handled ∨
        (entry.2 ∈ queue ∧ table.routeOfType (packetType entry.2.packetData) = some entry.1) := by
  induction queue generalizing ipp with
  | nil =>
    intro entry he
    exact Or.inl he
  | cons p queue ih =>
    intro entry he
    have hstep : ipp.drain table (p :: queue) = (ipp.processPacket table p).drain table queue :=
      rfl
    rw [hstep] at he
    rcases ih (ipp.processPacket table p) entry he with hin | ⟨hq, hr⟩
    · cases hp : table.routeOfType (packetType p.packetData) with
      | none =>
        rw [processPacket_unrecognized table ipp p hp] at hin
        exact Or.inl hin
      | some route =>
        rcases (processPacket_recognized table ipp p route hp).2 with hsame | happ
        · rw [hsame] at hin
          exact Or.inl hin
        · rw [happ, List.mem_append, List.mem_singleton] at hin
          rcases hin with hin | rfl
          · exact Or.inl hin
          · exact Or.inr ⟨List.mem_cons_self _ _, hp⟩
    · exact Or.inr ⟨List.mem_cons_of_mem _ hq, hr⟩

/-- C13: a packet of a type that is not recognized is dropped by the Inbound Packet
Processor and counted: it is handed to no handler and the counter of unrecognized packets
goes up by one, nothing else changes. Over a whole queue the counter goes up by the number
of packets of an unrecognized type, and every packet handed to a handler has a recognized
type and is handed to the handler of that type. In the server, over any run of the receive
loop from startup, these are the packets the loop queued to the processor: the loop itself
drops none of them (its `unknown packet ignored` branch is never taken, the processor
existing from startup on) and leaves the global `receivedPacketCount` at 0. -/
theorem unrecognizedPacket_dropped_and_counted (table : PacketTable)
    (ipp : InboundPacketProcessor) (p : ReceivedPacket)
    (hp : table.routeOfType (packetType p.packetData) = none) :
    ipp.processPacket table p = { ipp with unrecognizedCount := ipp.unrecognizedCount + 1 } ∧
    (ipp.processPacket table p).handled = ipp.handled ∧
    (∀ route : PacketRoute, ∀ queue : List ReceivedPacket,
      (route, p) ∈ (ipp.drain table queue).handled → (route, p) ∈ ipp.handled) ∧
    (∀ queue : List ReceivedPacket,
      (ipp.drain table queue).unrecognizedCount
        = ipp.unrecognizedCount + (queue.filter (unrecognizedType table)).length) ∧
    (∀ queue : List ReceivedPacket, ∀ entry ∈ (ipp.drain table queue).handled,
      entry ∈ ipp.handled ∨
        (entry.2 ∈ queue ∧ table.routeOfType (packetType entry.2.packetData) = some entry.1)) ∧
    (∀ (h : PacketHeaders) (jurisdiction : Option JurisdictionMap) (inputs : List LoopInput),
      (InboundPacketProcessor.start.drain table
          (processorQueue (runLoop h inputs (serverStart jurisdiction)))).unrecognizedCount
        = (((arrivals inputs).filter (routedToProcessor h)).filter
            (unrecognizedType table)).length ∧
      (runLoop h inputs (serverStart jurisdiction)).unknownPacketLines = [] ∧
      (runLoop h inputs (serverStart jurisdiction)).receivedPacketCount = 0) := by
  refine ⟨processPacket_unrecognized table ipp p hp, ?_, fun route queue hin => ?_,
    fun queue => drain_unrecognizedCount table queue ipp,
    fun queue => drain_handled table queue ipp, fun h jurisdiction inputs => ⟨?_, ?_, ?_⟩⟩
  · rw [processPacket_unrecognized table ipp p hp]
  · rcases drain_handled table queue ipp (route, p) hin with hold | ⟨_, hr⟩
    · exact hold
    · rw [hp] at hr
      cases hr
  · have hq := runLoop_processorQueue h inputs (serverStart jurisdiction) rfl
    have hq0 : processorQueue (serverStart jurisdiction) = [] := rfl
    rw [hq0, List.nil_append] at hq
    rw [hq, drain_unrecognizedCount]
    exact Nat.zero_add _
  · exact (runLoop_unknownPacketLines h inputs (serverStart jurisdiction) rfl).2
  · exact (runLoop_untouched h inputs (serverStart jurisdiction)).2.1

/-- Witness for C13: with the sample table, a packet of type 83 is dropped and counted by a
processor that has taken no entry yet; and of the three packets of types 83, 86 and 99
received right after startup, the two of an unrecognized type are counted. -/
theorem unrecognizedPacket_dropped_and_counted_witness :
    samplePacketTable.routeOfType (packetType [83, 1, 4]) = none ∧
    InboundPacketProcessor.start.processPacket samplePacketTable ⟨5, [83, 1, 4], 3⟩
      = { handled := [], unrecognizedCount := 1, malformedCount := 0 } ∧
    InboundPacketProcessor.start.drain samplePacketTable
        (processorQueue (runLoop sampleHeaders
          [⟨false, 0, some ⟨5, [83, 1, 4], 3⟩⟩, ⟨false, 0, some ⟨6, [86, 1, 9], 3⟩⟩,
           ⟨false, 0, some ⟨7, [99, 1], 2⟩⟩] (serverStart none)))
      = { handled := [(PacketRoute.treeEdit, ⟨6, [86, 1, 9], 3⟩)], unrecognizedCount := 2,
          malformedCount := 0 } :=
  ⟨by decide,
   (unrecognizedPacket_dropped_and_counted samplePacketTable InboundPacketProcessor.start
      ⟨5, [83, 1, 4], 3⟩ (by decide)).1,
   by decide⟩

/-! ## Startup -/

/-- C15: the jurisdiction is chosen at startup from the three options: with
`--jurisdictionFile` it is the map the file constructor builds, whatever the root and
end-node options are; otherwise, with `--jurisdictionRoot` or `--jurisdictionEndNodes`, it
is the map the string constructor builds from the two; otherwise it is absent. The loop
is entered with the value chosen and no iteration changes it. -/
theorem jurisdiction_chosen_at_startup (c : JurisdictionConstructors)
    (o : JurisdictionOptions) (h : PacketHeaders) :
    (∀ file : String, o.jurisdictionFile = some file →
      chooseJurisdiction c o = Except.map some (c.fromFilename file) ∧
      ∀ root endNodes : Option String,
        chooseJurisdiction c
            { o with jurisdictionRoot := root, jurisdictionEndNodes := endNodes }
          = chooseJurisdiction c o) ∧
    (o.jurisdictionFile = none →
      (o.jurisdictionRoot.isSome = true ∨ o.jurisdictionEndNodes.isSome = true) →
      chooseJurisdiction c o
        = Except.map some (c.fromHextStrings o.jurisdictionRoot o.jurisdictionEndNodes)) ∧
    (o.jurisdictionFile = none → o.jurisdictionRoot = none → o.jurisdictionEndNodes = none →
      chooseJurisdiction c o = Except.ok none) ∧
    (∀ jurisdiction : Option JurisdictionMap,
      chooseJurisdiction c o = Except.ok jurisdiction →
      serverStartup c o = Except.ok (serverStart jurisdiction) ∧
      ∀ inputs : List LoopInput,
        (runLoop h inputs (serverStart jurisdiction)).jurisdiction = jurisdiction) := by
  refine ⟨fun file hfile => ⟨?_, fun root endNodes => ?_⟩, fun hfile hgiven => ?_,
    fun hfile hroot hend => ?_, fun jurisdiction hj => ⟨?_, fun inputs => ?_⟩⟩
  · simp only [chooseJurisdiction, hfile]
    cases c.fromFilename file <;> rfl
  · simp only [chooseJurisdiction, hfile]
  · have hor : (o.jurisdictionRoot.isSome || o.jurisdictionEndNodes.isSome) = true := by
      rcases hgiven with hg | hg <;> simp [hg]
    simp only [chooseJurisdiction, hfile, hor, if_true]
    cases c.fromHextStrings o.jurisdictionRoot o.jurisdictionEndNodes <;> rfl
  · simp [chooseJurisdiction, hfile, hroot, hend]
  · simp only [serverStartup, hj]
  · exact (runLoop_untouched h inputs (serverStart jurisdiction)).1

/-- Witness for C15: a jurisdiction file given together with a root, then a root and an
end node without a file, then none of the three options. -/
theorem jurisdiction_chosen_at_startup_witness :
    chooseJurisdiction (specConstructors sampleFromFilename sampleAbsentArgument)
        { jurisdictionFile := some "j.txt", jurisdictionRoot := some "04",
          jurisdictionEndNodes := none }
      = Except.map some (sampleFromFilename "j.txt") ∧
    chooseJurisdiction (specConstructors sampleFromFilename sampleAbsentArgument)
        { jurisdictionFile := none, jurisdictionRoot := some "04",
          jurisdictionEndNodes := some "0460" }
      = Except.map some (JurisdictionMap.fromHextArguments sampleAbsentArgument (some "04") (some "0460")) ∧
    chooseJurisdiction (specConstructors sampleFromFilename sampleAbsentArgument)
        { jurisdictionFile := none, jurisdictionRoot := none, jurisdictionEndNodes := none }
      = Except.ok none :=
  ⟨((jurisdiction_chosen_at_startup (specConstructors sampleFromFilename sampleAbsentArgument)
      { jurisdictionFile := some "j.txt", jurisdictionRoot := some "04",
        jurisdictionEndNodes := none } sampleHeaders).1 "j.txt" rfl).1,
   (jurisdiction_chosen_at_startup (specConstructors sampleFromFilename sampleAbsentArgument)
      { jurisdictionFile := none, jurisdictionRoot := some "04",
        jurisdictionEndNodes := some "0460" } sampleHeaders).2.1 rfl (Or.inl rfl),
   (jurisdiction_chosen_at_startup (specConstructors sampleFromFilename sampleAbsentArgument)
      { jurisdictionFile := none, jurisdictionRoot := none, jurisdictionEndNodes := none }
      sampleHeaders).2.2.1 rfl rfl rfl⟩

/-- C17 as stated fails: with persistence enabled, the read of the persist file failing
and an input file given with `-i`, the tree is not empty when the loop is reached (it
holds the voxel read from the input file, and its dirty bit is set). -/
theorem failed_persist_read_tree_not_empty :
    (loadVoxels sampleTreeOps
        { wantVoxelPersist := true, voxelsPersistFilenameParameter := none,
          wantLocalDomain := false, voxelsFilename := some "in.svo" }).persistantFileRead
      = false ∧
    (loadVoxels sampleTreeOps
        { wantVoxelPersist := true, voxelsPersistFilenameParameter := none,
          wantLocalDomain := false, voxelsFilename := some "in.svo" }).serverTree
      = ([7], true) ∧
    (loadVoxels sampleTreeOps
        { wantVoxelPersist := true, voxelsPersistFilenameParameter := none,
          wantLocalDomain := false, voxelsFilename := some "in.svo" }).serverTree
      ≠ sampleTreeOps.clearDirtyBit sampleTreeOps.newTree := by
  decide

/-- C17, amended: when persistence is enabled and the read of the persist file fails,
startup goes on: the reaveraging pass is not run, the dirty bit of the tree the failed
read left is cleared, and the persist thread is created on the persist file name and
initialized. Without `-i` that tree is the server tree at the loop (the new tree with its
dirty bit cleared when a failed read leaves the tree as it was); with `-i` the input file
is read into it afterwards. -/
theorem failed_persist_read_startup {T : Type} (ops : VoxelTreeOps T) (o : VoxelOptions)
    (left : T) (hwant : o.wantVoxelPersist = true)
    (hfail : ops.readFromSVOFile ops.newTree (persistFilename o) = (false, left)) :
    (loadVoxels ops o).persistantFileRead = false ∧
    (loadVoxels ops o).printedVoxelsReAveraged = false ∧
    (loadVoxels ops o).voxelPersistThread
      = some { filename := persistFilename o, initialized := true } ∧
    (o.voxelsFilename = none → (loadVoxels ops o).serverTree = ops.clearDirtyBit left) ∧
    (o.voxelsFilename = none → left = ops.newTree →
      (loadVoxels ops o).serverTree = ops.clearDirtyBit ops.newTree) ∧
    (∀ voxelsFilename : String, o.voxelsFilename = some voxelsFilename →
      (loadVoxels ops o).serverTree
        = (ops.readFromSVOFile (ops.clearDirtyBit left) voxelsFilename).2) := by
  have hp : loadPersistFile ops o
      = { serverTree := ops.clearDirtyBit left
          persistantFileRead := false
          printedVoxelsReAveraged := false
          voxelPersistFilename := persistFilename o
          voxelPersistThread := some { filename := persistFilename o, initialized := true } } := by
    simp [loadPersistFile, hfail]
  cases hi : o.voxelsFilename with
  | none =>
    have hl : loadVoxels ops o = loadPersistFile ops o := by
      simp only [loadVoxels, hwant, hi, if_true]
    rw [hl, hp]
    exact ⟨rfl, rfl, rfl, fun _ => rfl, fun _ hleft => by rw [hleft],
      fun f hf => by cases hf⟩
  | some f => simp [loadVoxels, hwant, hp, hi]

/-- Witness for the amended C17: persistence enabled, the default persist file unreadable,
no input file. -/
theorem failed_persist_read_startup_witness :
    sampleTreeOps.readFromSVOFile sampleTreeOps.newTree
        (persistFilename
          { wantVoxelPersist := true, voxelsPersistFilenameParameter := none,
            wantLocalDomain := false, voxelsFilename := none })
      = (false, sampleTreeOps.newTree) ∧
    (loadVoxels sampleTreeOps
        { wantVoxelPersist := true, voxelsPersistFilenameParameter := none,
          wantLocalDomain := false, voxelsFilename := none }).serverTree
      = sampleTreeOps.clearDirtyBit sampleTreeOps.newTree :=
  ⟨by decide,
   (failed_persist_read_startup sampleTreeOps
      { wantVoxelPersist := true, voxelsPersistFilenameParameter := none,
        wantLocalDomain := false, voxelsFilename := none }
      sampleTreeOps.newTree rfl (by decide)).2.2.2.2.1 rfl rfl⟩

/-- C18: the jurisdiction sender is created holding the jurisdiction chosen at startup and
holds it in every state the loop reaches; when no jurisdiction was configured, the message
it sends to each requester is the empty-jurisdiction sentinel, which is the packed form of
no map. -/
theorem jurisdictionSender_sends_sentinel (h : PacketHeaders)
    (jurisdiction : Option JurisdictionMap) (inputs : List LoopInput) :
    ∃ js : JurisdictionSender,
      (runLoop h inputs (serverStart jurisdiction)).jurisdictionSender = some js ∧
      js.jurisdiction = jurisdiction ∧
      (jurisdiction = none →
        js.messageToSend = packEmptyJurisdictionIntoMessage ∧
        (∀ J : JurisdictionMap, js.messageToSend ≠ J.packIntoMessage) ∧
        ∀ reply ∈ js.replies, reply.2 = packEmptyJurisdictionIntoMessage) := by
  have hsome := runLoop_jurisdictionSender_isSome h inputs (serverStart jurisdiction) rfl
  have hkeep := (runLoop_untouched h inputs (serverStart jurisdiction)).2.2
  obtain ⟨js, hjs⟩ := Option.isSome_iff_exists.mp hsome
  have hj : js.jurisdiction = jurisdiction := by
    rw [hjs] at hkeep
    simpa [serverStart] using hkeep
  refine ⟨js, hjs, hj, fun hnone => ?_⟩
  have hmsg : js.messageToSend = packEmptyJurisdictionIntoMessage := by
    simp [JurisdictionSender.messageToSend, hj, hnone]
  refine ⟨hmsg, fun J hJ => ?_, fun reply hreply => ?_⟩
  · rw [hmsg] at hJ
    have hl := congrArg List.length hJ
    simp [packEmptyJurisdictionIntoMessage, JurisdictionMap.packIntoMessage,
      packOctalCode] at hl
  · simp only [JurisdictionSender.replies, List.mem_map] at hreply
    obtain ⟨p, _, hp⟩ := hreply
    rw [← hp]
    exact hmsg

/-- Witness for C18: no jurisdiction configured, one jurisdiction request from address 5
received. -/
theorem jurisdictionSender_sends_sentinel_witness :
    ∃ js : JurisdictionSender,
      (runLoop sampleHeaders [⟨false, 0, some ⟨5, [106, 1, 9], 3⟩⟩]
        (serverStart none)).jurisdictionSender = some js ∧
      js.messageToSend = packEmptyJurisdictionIntoMessage :=
  (jurisdictionSender_sends_sentinel sampleHeaders none
    [⟨false, 0, some ⟨5, [106, 1, 9], 3⟩⟩]).elim
    (fun js hjs => ⟨js, hjs.1, (hjs.2.2 rfl).1⟩)

/-- C19: `attachVoxelNodeDataToNode` attaches new per-client data to a node exactly when
the node has no linked data, leaves a node with linked data as it is, and calling it twice
equals calling it once. -/
theorem attachVoxelNodeDataToNode_idempotent {D : Type} (newVoxelNodeData : Node D → D)
    (newNode : Node D) :
    (newNode.linkedData = none →
      attachVoxelNodeDataToNode newVoxelNodeData newNode
        = { newNode with linkedData := some (newVoxelNodeData newNode) }) ∧
    (∀ d : D, newNode.linkedData = some d →
      attachVoxelNodeDataToNode newVoxelNodeData newNode = newNode) ∧
    attachVoxelNodeDataToNode newVoxelNodeData
        (attachVoxelNodeDataToNode newVoxelNodeData newNode)
      = attachVoxelNodeDataToNode newVoxelNodeData newNode := by
  cases hd : newNode.linkedData with
  | none => simp [attachVoxelNodeDataToNode, hd]
  | some d => simp [attachVoxelNodeDataToNode, hd]

/-- Witness for C19: a node without linked data gets the data built for it; a node with
linked data keeps it. -/
theorem attachVoxelNodeDataToNode_idempotent_witness :
    attachVoxelNodeDataToNode (fun n : Node Nat => n.nodeID + 100) ⟨9, none⟩ = ⟨9, some 109⟩ ∧
    attachVoxelNodeDataToNode (fun n : Node Nat => n.nodeID + 100) ⟨9, some 3⟩ = ⟨9, some 3⟩ :=
  ⟨(attachVoxelNodeDataToNode_idempotent (fun n : Node Nat => n.nodeID + 100) ⟨9, none⟩).1 rfl,
   (attachVoxelNodeDataToNode_idempotent (fun n : Node Nat => n.nodeID + 100)
      ⟨9, some 3⟩).2.1 3 rfl⟩

/-! ## Compaction -/

/-- C20: running the color-reaveraging pass twice in a row produces the same tree as
running it once. -/
theorem reaverageVoxelColors_idempotent (tree : VoxelNode) :
    reaverageVoxelColors (reaverageVoxelColors tree) = reaverageVoxelColors tree := by
  induction tree with
  | absent => rfl
  | present existence color dirty children ih =>
    have hch : (fun i => reaverageVoxelColors (reaverageVoxelColors (children i)))
        = fun i => reaverageVoxelColors (children i) := funext ih
    by_cases hc : childColors (fun i => reaverageVoxelColors (children i)) = []
    · simp only [reaverageVoxelColors, hc, if_true, hch]
    · simp only [reaverageVoxelColors, hc, if_false, hch]

/-! ## Numeric command-line options -/

theorem toInt32_range (n : Int) :
    -2147483648 ≤ toInt32 n ∧ toInt32 n ≤ 2147483647 := by
  unfold toInt32
  omega

theorem toInt32_of_range (n : Int) (hlo : -2147483648 ≤ n) (hhi : n ≤ 2147483647) :
    toInt32 n = n := by
  unfold toInt32
  omega

theorem atoi_range (s : String) : -2147483648 ≤ atoi s ∧ atoi s ≤ 2147483647 :=
  toInt32_range (strtol s)

theorem atoi_of_range (s : String) (hlo : -2147483648 ≤ writtenInteger s)
    (hhi : writtenInteger s ≤ 2147483647) : atoi s = writtenInteger s := by
  have hs : strtol s = writtenInteger s := by
    unfold strtol
    omega
  unfold atoi
  rw [hs]
  exact toInt32_of_range _ hlo hhi

/-- C24: the per-client packet budget is 10 when `--packetsPerSecond` is absent and
otherwise the larger of 1 and the parsed integer divided by `INTERVALS_PER_SECOND`
(truncated toward zero); it is at least 1 for every input, and is 1 for the inputs "0",
"-50" and "abc". The parsed integer is the `int` that `atoi` returns: the integer written
when that fits 32 bits, and always a value between -2^31 and 2^31 - 1, so that with a
positive `INTERVALS_PER_SECOND` the budget fits an `int` as well. -/
theorem packetsPerClientPerInterval_ge_one (INTERVALS_PER_SECOND : Int)
    (packetsPerSecond : Option String) :
    packetsPerClientPerInterval INTERVALS_PER_SECOND none = 10 ∧
    (∀ p : String,
      packetsPerClientPerInterval INTERVALS_PER_SECOND (some p)
        = max 1 (Int.tdiv (atoi p) INTERVALS_PER_SECOND)) ∧
    1 ≤ packetsPerClientPerInterval INTERVALS_PER_SECOND packetsPerSecond ∧
    packetsPerClientPerInterval INTERVALS_PER_SECOND (some "0") = 1 ∧
    (0 < INTERVALS_PER_SECOND →
      packetsPerClientPerInterval INTERVALS_PER_SECOND (some "-50") = 1) ∧
    packetsPerClientPerInterval INTERVALS_PER_SECOND (some "abc") = 1 ∧
    (∀ p : String, -2147483648 ≤ atoi p ∧ atoi p ≤ 2147483647) ∧
    (∀ p : String, -2147483648 ≤ writtenInteger p → writtenInteger p ≤ 2147483647 →
      atoi p = writtenInteger p) ∧
    (0 < INTERVALS_PER_SECOND →
      packetsPerClientPerInterval INTERVALS_PER_SECOND packetsPerSecond ≤ 2147483647) := by
  have hmax : ∀ p : String,
      packetsPerClientPerInterval INTERVALS_PER_SECOND (some p)
        = max 1 (Int.tdiv (atoi p) INTERVALS_PER_SECOND) := by
    intro p
    simp only [packetsPerClientPerInterval]
    split
    · rename_i hlt
      exact (max_eq_left (by omega)).symm
    · rename_i hge
      exact (max_eq_right (by omega)).symm
  have h0 : atoi "0" = 0 := by decide
  have habc : atoi "abc" = 0 := by decide
  have hneg : atoi "-50" = -50 := by decide
  refine ⟨rfl, hmax, ?_, ?_, ?_, ?_, atoi_range, atoi_of_range, ?_⟩
  · cases packetsPerSecond with
    | none =>
      show (1 : Int) ≤ 10
      decide
    | some p =>
      rw [hmax p]
      exact le_max_left _ _
  · rw [hmax, h0, Int.zero_tdiv]
    rfl
  · intro hpos
    rw [hmax, hneg]
    apply max_eq_left
    have h1 : Int.tdiv (-50) INTERVALS_PER_SECOND = -(Int.tdiv 50 INTERVALS_PER_SECOND) :=
      Int.neg_tdiv 50 INTERVALS_PER_SECOND
    have h2 : 0 ≤ Int.tdiv 50 INTERVALS_PER_SECOND :=
      Int.tdiv_nonneg (by decide) (le_of_lt hpos)
    omega
  · rw [hmax, habc, Int.zero_tdiv]
    rfl
  · intro hpos
    cases packetsPerSecond with
    | none =>
      show (10 : Int) ≤ 2147483647
      decide
    | some p =>
      rw [hmax p]
      apply max_le (by decide)
      have hr := atoi_range p
      by_cases hnn : 0 ≤ atoi p
      · have hle : Int.tdiv (atoi p) INTERVALS_PER_SECOND ≤ atoi p := by
          rw [Int.tdiv_eq_ediv hnn (le_of_lt hpos)]
          exact Int.ediv_le_self _ hnn
        omega
      · have hle : Int.tdiv (atoi p) INTERVALS_PER_SECOND ≤ 0 := by
          have h1 : Int.tdiv (atoi p) INTERVALS_PER_SECOND
              = -(Int.tdiv (-(atoi p)) INTERVALS_PER_SECOND) := by
            rw [Int.neg_tdiv, Int.neg_neg]
          have h2 : 0 ≤ Int.tdiv (-(atoi p)) INTERVALS_PER_SECOND :=
            Int.tdiv_nonneg (by omega) (le_of_lt hpos)
          omega
        omega

/-- Witness for C24: sixty intervals per second; 600 packets per second give 10 per
interval, and the input "-50" gives 1; so does the input "2147483648", which `atoi` returns
as the `int` -2147483648. -/
theorem packetsPerClientPerInterval_ge_one_witness :
    (0 : Int) < 60 ∧
    packetsPerClientPerInterval 60 (some "600") = max 1 (Int.tdiv (atoi "600") 60) ∧
    packetsPerClientPerInterval 60 (some "600") = 10 ∧
    packetsPerClientPerInterval 60 (some "-50") = 1 ∧
    atoi "2147483648" = -2147483648 ∧
    packetsPerClientPerInterval 60 (some "2147483648") = 1 ∧
    packetsPerClientPerInterval 60 (some "2147483647") ≤ 2147483647 :=
  ⟨by decide, (packetsPerClientPerInterval_ge_one 60 none).2.1 "600", by decide,
   (packetsPerClientPerInterval_ge_one 60 none).2.2.2.2.1 (by decide), by decide, by decide,
   (packetsPerClientPerInterval_ge_one 60 (some "2147483647")).2.2.2.2.2.2.2.2 (by decide)⟩

/-- C26: the listen port is the integer parsed from `--port` when that is at least 1, and
`VOXEL_LISTEN_PORT` when the option is absent or parses to a value below 1; it is at least
1 whenever `VOXEL_LISTEN_PORT` is. The integer parsed is the `int` that `atoi` returns: the
integer written when that fits 32 bits, and always a value between -2^31 and 2^31 - 1, so
that the port fits an `int` whenever `VOXEL_LISTEN_PORT` does. -/
theorem listenPort_ge_one (VOXEL_LISTEN_PORT : Int) (portParameter : Option String) :
    listenPort VOXEL_LISTEN_PORT none = VOXEL_LISTEN_PORT ∧
    (∀ p : String, 1 ≤ atoi p → listenPort VOXEL_LISTEN_PORT (some p) = atoi p) ∧
    (∀ p : String, atoi p < 1 → listenPort VOXEL_LISTEN_PORT (some p) = VOXEL_LISTEN_PORT) ∧
    (1 ≤ VOXEL_LISTEN_PORT → 1 ≤ listenPort VOXEL_LISTEN_PORT portParameter) ∧
    (∀ p : String, 1 ≤ writtenInteger p → writtenInteger p ≤ 2147483647 →
      listenPort VOXEL_LISTEN_PORT (some p) = writtenInteger p) ∧
    (VOXEL_LISTEN_PORT ≤ 2147483647 →
      listenPort VOXEL_LISTEN_PORT portParameter ≤ 2147483647) := by
  have hge : ∀ p : String, 1 ≤ atoi p → listenPort VOXEL_LISTEN_PORT (some p) = atoi p := by
    intro p hp
    simp only [listenPort]
    rw [if_neg (by omega)]
  refine ⟨rfl, hge, fun p hp => ?_, fun hV => ?_, fun p hlo hhi => ?_, fun hV => ?_⟩
  · simp only [listenPort]
    rw [if_pos hp]
  · cases portParameter with
    | none => exact hV
    | some p =>
      simp only [listenPort]
      split
      · exact hV
      · omega
  · have hat := atoi_of_range p (by omega) hhi
    rw [hge p (by omega), hat]
  · cases portParameter with
    | none => exact hV
    | some p =>
      have hr := atoi_range p
      simp only [listenPort]
      split
      · exact hV
      · omega

/-- Witness for C26: default port 40103; "8080" is used, "0" and "-3" are not, nor is
"2147483648", which `atoi` returns as the `int` -2147483648. -/
theorem listenPort_ge_one_witness :
    listenPort 40103 (some "8080") = atoi "8080" ∧
    listenPort 40103 (some "8080") = 8080 ∧
    listenPort 40103 (some "0") = 40103 ∧
    1 ≤ listenPort 40103 (some "-3") ∧
    listenPort 40103 (some "2147483648") = 40103 ∧
    listenPort 40103 (some "2147483647") = 2147483647 :=
  ⟨(listenPort_ge_one 40103 none).2.1 "8080" (by decide),
   (listenPort_ge_one 40103 none).2.2.2.2.1 "8080" (by decide) (by decide),
   (listenPort_ge_one 40103 none).2.2.1 "0" (by decide),
   (listenPort_ge_one 40103 (some "-3")).2.2.2.1 (by decide),
   (listenPort_ge_one 40103 none).2.2.1 "2147483648" (by decide),
   (listenPort_ge_one 40103 none).2.2.2.2.1 "2147483647" (by decide) (by decide)⟩

/-! ## One destination per packet -/

theorem append_cons_ne_self {α : Type} (l t : List α) (x : α) : l ++ x :: t ≠ l := by
  intro h
  have hl := congrArg List.length h
  simp only [List.length_append, List.length_cons] at hl
  omega

theorem queueReceivedPacket_jurisdictionSender_ne (js : JurisdictionSender)
    (a : Nat) (d : List Nat) (n : Nat) : js.queueReceivedPacket a d n ≠ js := by
  intro h
  have hq := congrArg JurisdictionSender.receivedPackets h
  exact append_cons_ne_self _ _ _ hq

theorem queueReceivedPacket_processor_ne (pp : VoxelServerPacketProcessor)
    (a : Nat) (d : List Nat) (n : Nat) : pp.queueReceivedPacket a d n ≠ pp := by
  intro h
  have hq := congrArg VoxelServerPacketProcessor.receivedPackets h
  exact append_cons_ne_self _ _ _ hq

/-- The dispatch written by destination. -/
theorem dispatchPacket_by_destination (h : PacketHeaders) (p : ReceivedPacket)
    (s : ServerState) :
    dispatchPacket h p s =
      match destinationOf h (packetType p.packetData) with
      | Destination.nodeRegistration =>
        { s with
          nodeListCalls := s.nodeListCalls ++
            [NodeListCall.addOrUpdateNode p.senderAddress p.senderAddress h.NODE_TYPE_AGENT
               (h.unpackNodeId (p.packetData.drop (h.numBytesForPacketHeader p.packetData))),
             NodeListCall.updateNodeWithData p.packetData p.packetLength] }
      | Destination.nodeList =>
        { s with
          nodeListCalls := s.nodeListCalls ++
            [NodeListCall.processNodeData p.senderAddress p.packetData p.packetLength] }
      | Destination.jurisdictionSender =>
        match s.jurisdictionSender with
        | some js =>
          { s with
            jurisdictionSender :=
              some (js.queueReceivedPacket p.senderAddress p.packetData p.packetLength) }
        | none => s
      | Destination.packetProcessor =>
        match s.voxelServerPacketProcessor with
        | some pp =>
          { s with
            voxelServerPacketProcessor :=
              some (pp.queueReceivedPacket p.senderAddress p.packetData p.packetLength) }
        | none =>
          { s with
            unknownPacketLines := s.unknownPacketLines ++ [packetType p.packetData] } := by
  by_cases hHead : packetType p.packetData = h.PACKET_TYPE_HEAD_DATA
  · simp only [dispatchPacket, destinationOf, if_pos hHead]
  · by_cases hPing : packetType p.packetData = h.PACKET_TYPE_PING
    · simp only [dispatchPacket, destinationOf, if_neg hHead, if_pos hPing]
    · by_cases hDomain : packetType p.packetData = h.PACKET_TYPE_DOMAIN
      · simp only [dispatchPacket, destinationOf, if_neg hHead, if_neg hPing, if_pos hDomain]
      · by_cases hJur : packetType p.packetData = h.PACKET_TYPE_VOXEL_JURISDICTION_REQUEST
        · simp only [dispatchPacket, destinationOf, if_neg hHead, if_neg hPing,
            if_neg hDomain, if_pos hJur]
        · simp only [dispatchPacket, destinationOf, if_neg hHead, if_neg hPing,
            if_neg hDomain, if_neg hJur]

/-- C25: a version-matching packet goes to the one destination its first byte selects:
head-data to the registration and update of the node, ping and domain to the node list,
jurisdiction-request to the jurisdiction sender, everything else to the packet processor.
At most one receiver is changed, exactly one when both the jurisdiction sender and the
packet processor exist, and a jurisdiction-request received when there is no jurisdiction
sender leaves the state as it was. -/
theorem dispatch_single_destination (h : PacketHeaders) (p : ReceivedPacket)
    (s : ServerState) (hv : h.packetVersionMatch p.packetData = true) :
    receiveAndDispatch h (some p) s =
      (match destinationOf h (packetType p.packetData) with
      | Destination.nodeRegistration =>
        { s with
          nodeListCalls := s.nodeListCalls ++
            [NodeListCall.addOrUpdateNode p.senderAddress p.senderAddress h.NODE_TYPE_AGENT
               (h.unpackNodeId (p.packetData.drop (h.numBytesForPacketHeader p.packetData))),
             NodeListCall.updateNodeWithData p.packetData p.packetLength] }
      | Destination.nodeList =>
        { s with
          nodeListCalls := s.nodeListCalls ++
            [NodeListCall.processNodeData p.senderAddress p.packetData p.packetLength] }
      | Destination.jurisdictionSender =>
        match s.jurisdictionSender with
        | some js =>
          { s with
            jurisdictionSender :=
              some (js.queueReceivedPacket p.senderAddress p.packetData p.packetLength) }
        | none => s
      | Destination.packetProcessor =>
        match s.voxelServerPacketProcessor with
        | some pp =>
          { s with
            voxelServerPacketProcessor :=
              some (pp.queueReceivedPacket p.senderAddress p.packetData p.packetLength) }
        | none =>
          { s with
            unknownPacketLines := s.unknownPacketLines ++ [packetType p.packetData] }) ∧
    receiversChanged s (receiveAndDispatch h (some p) s) ≤ 1 ∧
    (s.jurisdictionSender.isSome = true → s.voxelServerPacketProcessor.isSome = true →
      receiversChanged s (receiveAndDispatch h (some p) s) = 1) ∧
    (destinationOf h (packetType p.packetData) = Destination.jurisdictionSender →
      s.jurisdictionSender = none → receiveAndDispatch h (some p) s = s) := by
  have hstep : receiveAndDispatch h (some p) s = dispatchPacket h p s := by
    simp [receiveAndDispatch, hv]
  rw [hstep, dispatchPacket_by_destination h p s]
  refine ⟨rfl, ?_, ?_, ?_⟩
  · cases destinationOf h (packetType p.packetData) with
    | nodeRegistration => simp [receiversChanged, append_cons_ne_self]
    | nodeList => simp [receiversChanged, append_cons_ne_self]
    | jurisdictionSender =>
      cases hjs : s.jurisdictionSender with
      | none => simp [receiversChanged, hjs]
      | some js =>
        simp [receiversChanged, hjs, queueReceivedPacket_jurisdictionSender_ne]
    | packetProcessor =>
      cases hpp : s.voxelServerPacketProcessor with
      | none => simp [receiversChanged, hpp]
      | some pp => simp [receiversChanged, hpp, queueReceivedPacket_processor_ne]
  · intro hjsome hppsome
    obtain ⟨js, hjs⟩ := Option.isSome_iff_exists.mp hjsome
    obtain ⟨pp, hpp⟩ := Option.isSome_iff_exists.mp hppsome
    cases destinationOf h (packetType p.packetData) with
    | nodeRegistration => simp [receiversChanged, append_cons_ne_self]
    | nodeList => simp [receiversChanged, append_cons_ne_self]
    | jurisdictionSender =>
      simp [receiversChanged, hjs, queueReceivedPacket_jurisdictionSender_ne]
    | packetProcessor =>
      simp [receiversChanged, hpp, queueReceivedPacket_processor_ne]
  · intro hd hnone
    rw [hd, hnone]

/-- Witness for C25: a ping from address 5 received right after startup changes the node
list only; a jurisdiction request received when there is no jurisdiction sender changes
nothing. -/
theorem dispatch_single_destination_witness :
    sampleHeaders.packetVersionMatch [80, 1] = true ∧
    receiversChanged (serverStart none)
      (receiveAndDispatch sampleHeaders (some ⟨5, [80, 1], 2⟩) (serverStart none)) = 1 ∧
    receiveAndDispatch sampleHeaders (some ⟨5, [106, 1], 2⟩)
        { serverStart none with jurisdictionSender := none }
      = { serverStart none with jurisdictionSender := none } :=
  ⟨rfl,
   (dispatch_single_destination sampleHeaders ⟨5, [80, 1], 2⟩ (serverStart none) rfl).2.2.1
     rfl rfl,
   (dispatch_single_destination sampleHeaders ⟨5, [106, 1], 2⟩
     { serverStart none with jurisdictionSender := none } rfl).2.2.2 (by decide) rfl⟩

/-! ## The interface menu -/

theorem memcmp_append_self (a x y : List Nat) : memcmp (a ++ x) (a ++ y) a.length = 0 := by
  induction a with
  | nil => rfl
  | cons b a ih => simp [memcmp, ih]

/-- C27 fails on the code: when the hostname typed in the dialog is a proper beginning of
the current domain hostname, `memcmp` over the length of the new name finds no difference
and both `Menu::goToDomain` and `Menu::editPreferences` change nothing, although the two
hostnames differ. -/
theorem switchDomainHostname_misses_shorter_name (DEFAULT_DOMAIN_HOSTNAME : List Nat)
    (text rest : List Nat) (calls : List DomainCall)
    (htext : text ≠ []) (hrest : rest ≠ []) :
    text ≠ text ++ rest ∧
    Menu.goToDomain DEFAULT_DOMAIN_HOSTNAME true text ⟨text ++ rest, calls⟩
      = ⟨text ++ rest, calls⟩ ∧
    Menu.editPreferences DEFAULT_DOMAIN_HOSTNAME true text ⟨text ++ rest, calls⟩
      = ⟨text ++ rest, calls⟩ := by
  have hlen : text.length > 0 := List.length_pos.mpr htext
  have hne : text ≠ text ++ rest := by
    intro h
    have hl := congrArg List.length h
    have hr : 0 < rest.length := List.length_pos.mpr hrest
    simp only [List.length_append] at hl
    omega
  have hcmp : memcmp (text ++ rest ++ [0]) (text ++ [0]) text.length = 0 := by
    rw [List.append_assoc]
    exact memcmp_append_self text _ _
  have hswitch : switchDomainHostname DEFAULT_DOMAIN_HOSTNAME text ⟨text ++ rest, calls⟩
      = ⟨text ++ rest, calls⟩ := by
    simp only [switchDomainHostname, hlen, if_true, hcmp, ne_eq, not_true_eq_false, if_false]
  refine ⟨hne, ?_, ?_⟩
  · simp only [Menu.goToDomain, if_true, hswitch]
  · simp only [Menu.editPreferences, if_true, hswitch]

/-- Witness for C27: the current hostname is root.highfidelity.io and the dialog holds
root. -/
theorem switchDomainHostname_misses_shorter_name_witness :
    localBytes "root" ≠ localBytes "root.highfidelity.io" ∧
    Menu.goToDomain (localBytes "root.highfidelity.io") true (localBytes "root")
        ⟨localBytes "root.highfidelity.io", []⟩
      = ⟨localBytes "root.highfidelity.io", []⟩ :=
  ⟨(switchDomainHostname_misses_shorter_name (localBytes "root.highfidelity.io")
      (localBytes "root") (localBytes ".highfidelity.io") [] (by decide) (by decide)).1,
   (switchDomainHostname_misses_shorter_name (localBytes "root.highfidelity.io")
      (localBytes "root") (localBytes ".highfidelity.io") [] (by decide) (by decide)).2.1⟩

theorem updateVoxelModeActions_apply (actions : List Nat) (sender : Option Nat)
    (isChecked : Nat → Bool) (a : Nat) :
    updateVoxelModeActions actions sender isChecked a
      = (isChecked a && !(decide (a ∈ actions) && (some a != sender))) := by
  unfold updateVoxelModeActions
  induction actions generalizing isChecked with
  | nil => simp
  | cons b bs ih =>
    rw [List.foldl_cons, ih]
    by_cases hab : a = b
    · subst hab
      by_cases hs : (some a != sender) = true
      · cases hc : isChecked a <;> simp [hc, hs]
      · simp only [Bool.not_eq_true] at hs
        simp [hs]
    · by_cases hcond : (isChecked b && (some b != sender)) = true
      · simp [hcond, Function.update_noteq hab, hab]
      · simp [hcond, hab]

/-- C28: after `updateVoxelModeActions` no action of the group other than the sender is
checked, the checked state of the sender (and of every action outside the group) is what
it was, and at most one action of the group is checked. -/
theorem updateVoxelModeActions_only_sender (actions : List Nat) (sender : Option Nat)
    (isChecked : Nat → Bool) :
    (∀ a ∈ actions, some a ≠ sender →
      updateVoxelModeActions actions sender isChecked a = false) ∧
    (∀ a : Nat, some a = sender →
      updateVoxelModeActions actions sender isChecked a = isChecked a) ∧
    (∀ a : Nat, a ∉ actions →
      updateVoxelModeActions actions sender isChecked a = isChecked a) ∧
    (∀ a ∈ actions, ∀ b ∈ actions,
      updateVoxelModeActions actions sender isChecked a = true →
      updateVoxelModeActions actions sender isChecked b = true → a = b) := by
  have hother : ∀ a ∈ actions, some a ≠ sender →
      updateVoxelModeActions actions sender isChecked a = false := by
    intro a ha hs
    rw [updateVoxelModeActions_apply]
    simp [ha, hs]
  refine ⟨hother, fun a hs => ?_, fun a ha => ?_, fun a ha b hb hca hcb => ?_⟩
  · rw [updateVoxelModeActions_apply]
    simp [hs]
  · rw [updateVoxelModeActions_apply]
    simp [ha]
  · by_cases hsa : some a = sender
    · by_cases hsb : some b = sender
      · exact Option.some.inj (hsa.trans hsb.symm)
      · rw [hother b hb hsb] at hcb
        cases hcb
    · rw [hother a ha hsa] at hca
      cases hca

/-- Witness for C28: five mode actions, the first, third and fifth checked, the third
being the sender. -/
theorem updateVoxelModeActions_only_sender_witness :
    updateVoxelModeActions [0, 1, 2, 3, 4] (some 2) (fun a => a % 2 == 0) 0 = false ∧
    updateVoxelModeActions [0, 1, 2, 3, 4] (some 2) (fun a => a % 2 == 0) 2 = true :=
  ⟨(updateVoxelModeActions_only_sender [0, 1, 2, 3, 4] (some 2) (fun a => a % 2 == 0)).1 0
      (by decide) (by decide),
   (updateVoxelModeActions_only_sender [0, 1, 2, 3, 4] (some 2)
      (fun a => a % 2 == 0)).2.1 2 rfl⟩

/-! ## The voxel importer -/

/-- A string that ends in a nonempty suffix ends in the last character of the suffix. -/
theorem getLast?_of_isSuffixOf (suffix l : List Char) (c : Char)
    (hs : suffix.isSuffixOf l = true) (hc : suffix.getLast? = some c) :
    l.getLast? = some c := by
  obtain ⟨t, rfl⟩ := List.isSuffixOf_iff_suffix.mp hs
  cases suffix with
  | nil => simp at hc
  | cons x xs =>
    rw [List.getLast?_append, hc]
    rfl

theorem endsWith_last (toCaseFolded : Char → Char) (filename : String)
    (suffix : String) (c : Char)
    (hs : endsWith toCaseFolded filename suffix = true)
    (hc : (suffix.toList.map toCaseFolded).getLast? = some c) :
    (filename.toList.map toCaseFolded).getLast? = some c :=
  getLast?_of_isSuffixOf _ _ c hs hc

/-- C29: `ImportTask::run` selects the reader from the ending of the file name, compared
after case folding: a name ending in .png is read as square ARGB32 pixels, one ending in
.svo as an SVO file, one ending in .schematic as a schematic file, and for any other name
no reader is called; one reader runs for a name with one of the three endings. (The case
folding keeps g, o and c apart.) -/
theorem importTask_run_by_extension (toCaseFolded : Char → Char) (filename : String)
    (hgo : toCaseFolded 'g' ≠ toCaseFolded 'o')
    (hgc : toCaseFolded 'g' ≠ toCaseFolded 'c')
    (hoc : toCaseFolded 'o' ≠ toCaseFolded 'c') :
    (endsWith toCaseFolded filename ".png" = true →
      ImportTask.run toCaseFolded filename = ImportCall.readFromSquareARGB32Pixels filename) ∧
    (endsWith toCaseFolded filename ".svo" = true →
      ImportTask.run toCaseFolded filename = ImportCall.readFromSVOFile filename) ∧
    (endsWith toCaseFolded filename ".schematic" = true →
      ImportTask.run toCaseFolded filename = ImportCall.readFromSchematicFile filename) ∧
    (endsWith toCaseFolded filename ".png" = false →
      endsWith toCaseFolded filename ".svo" = false →
      endsWith toCaseFolded filename ".schematic" = false →
      ImportTask.run toCaseFolded filename = ImportCall.invalidFileExtension ∧
      (ImportTask.run toCaseFolded filename).readersRun = 0) ∧
    ((endsWith toCaseFolded filename ".png" = true ∨
        endsWith toCaseFolded filename ".svo" = true ∨
        endsWith toCaseFolded filename ".schematic" = true) →
      (ImportTask.run toCaseFolded filename).readersRun = 1) := by
  have hpng : endsWith toCaseFolded filename ".png" = true →
      (filename.toList.map toCaseFolded).getLast? = some (toCaseFolded 'g') :=
    fun h => endsWith_last toCaseFolded filename ".png" _ h rfl
  have hsvo : endsWith toCaseFolded filename ".svo" = true →
      (filename.toList.map toCaseFolded).getLast? = some (toCaseFolded 'o') :=
    fun h => endsWith_last toCaseFolded filename ".svo" _ h rfl
  have hsch : endsWith toCaseFolded filename ".schematic" = true →
      (filename.toList.map toCaseFolded).getLast? = some (toCaseFolded 'c') :=
    fun h => endsWith_last toCaseFolded filename ".schematic" _ h rfl
  have h1 : endsWith toCaseFolded filename ".png" = true →
      ImportTask.run toCaseFolded filename
        = ImportCall.readFromSquareARGB32Pixels filename := by
    intro h
    simp only [ImportTask.run, h, if_true]
  have h2 : endsWith toCaseFolded filename ".svo" = true →
      ImportTask.run toCaseFolded filename = ImportCall.readFromSVOFile filename := by
    intro h
    have hnp : endsWith toCaseFolded filename ".png" = false := by
      cases hp : endsWith toCaseFolded filename ".png" with
      | false => rfl
      | true =>
        have := (hpng hp).symm.trans (hsvo h)
        exact absurd (Option.some.inj this) hgo
    simp [ImportTask.run, h, hnp]
  have h3 : endsWith toCaseFolded filename ".schematic" = true →
      ImportTask.run toCaseFolded filename = ImportCall.readFromSchematicFile filename := by
    intro h
    have hnp : endsWith toCaseFolded filename ".png" = false := by
      cases hp : endsWith toCaseFolded filename ".png" with
      | false => rfl
      | true =>
        have := (hpng hp).symm.trans (hsch h)
        exact absurd (Option.some.inj this) hgc
    have hns : endsWith toCaseFolded filename ".svo" = false := by
      cases hp : endsWith toCaseFolded filename ".svo" with
      | false => rfl
      | true =>
        have := (hsvo hp).symm.trans (hsch h)
        exact absurd (Option.some.inj this) hoc
    simp [ImportTask.run, h, hnp, hns]
  refine ⟨h1, h2, h3, fun hp hs hc => ?_, fun hany => ?_⟩
  · simp [ImportTask.run, hp, hs, hc, ImportCall.readersRun]
  · rcases hany with h | h | h
    · rw [h1 h]
      rfl
    · rw [h2 h]
      rfl
    · rw [h3 h]
      rfl

/-- Witness for C29: with the ASCII folding `Char.toLower`, the name house.SVO is read as
an SVO file and the name notes.txt by no reader. -/
theorem importTask_run_by_extension_witness :
    ImportTask.run Char.toLower "house.SVO" = ImportCall.readFromSVOFile "house.SVO" ∧
    ImportTask.run Char.toLower "notes.txt" = ImportCall.invalidFileExtension :=
  ⟨(importTask_run_by_extension Char.toLower "house.SVO" (by decide) (by decide)
      (by decide)).2.1 (by decide),
   ((importTask_run_by_extension Char.toLower "notes.txt" (by decide) (by decide)
      (by decide)).2.2.2.1 (by decide) (by decide) (by decide)).1⟩

/-! ## The assignment client -/

/-- The fork loop in a process in which every call of `fork` returns a nonzero value. -/
theorem forkChildren_parent (forkReturn : Nat → Int) (n i : Nat) (st : ForkState)
    (hparent : ∀ k, k < n → forkReturn (i + k) ≠ 0) :
    forkChildren forkReturn n i st
      = { processID := if n = 0 then st.processID else forkReturn (i + n - 1)
          childForks := st.childForks ++ (List.range n).map (fun k => forkReturn (i + k))
          forkCalls := st.forkCalls + n } := by
  induction n generalizing i st with
  | zero => simp [forkChildren]
  | succ n ih =>
    have h0 : forkReturn i ≠ 0 := by
      have := hparent 0 (Nat.succ_pos n)
      simpa using this
    have hrest : ∀ k, k < n → forkReturn (i + 1 + k) ≠ 0 := by
      intro k hk
      have := hparent (k + 1) (Nat.succ_lt_succ hk)
      rwa [show i + (k + 1) = i + 1 + k from by omega] at this
    rw [forkChildren, if_neg h0, ih (i + 1) _ hrest]
    have hmap : (List.range (n + 1)).map (fun k => forkReturn (i + k))
        = forkReturn i :: (List.range n).map (fun k => forkReturn (i + 1 + k)) := by
      rw [List.range_succ_eq_map, List.map_cons, List.map_map]
      simp only [Nat.add_zero, List.cons.injEq, true_and]
      apply List.map_congr_left
      intro k _
      simp only [Function.comp_apply]
      congr 1
      omega
    rw [hmap]
    cases n with
    | zero => simp
    | succ m =>
      have hidx : i + 1 + (m + 1) - 1 = i + (m + 1 + 1) - 1 := by omega
      simp only [Nat.succ_ne_zero, if_false, List.append_assoc, List.singleton_append,
        ForkState.mk.injEq, hidx, true_and]
      omega

/-- The fork loop in the child created by the call number `i + k`. -/
theorem forkChildren_child (forkReturn : Nat → Int) (n i k : Nat) (st : ForkState)
    (hk : k < n) (hparent : ∀ j, j < k → forkReturn (i + j) ≠ 0)
    (hchild : forkReturn (i + k) = 0) :
    forkChildren forkReturn n i st
      = { processID := 0
          childForks := st.childForks ++ (List.range k).map (fun j => forkReturn (i + j))
          forkCalls := st.forkCalls + k + 1 } := by
  induction k generalizing n i st with
  | zero =>
    cases n with
    | zero => omega
    | succ n =>
      have h0 : forkReturn i = 0 := by simpa using hchild
      simp [forkChildren, h0]
  | succ k ih =>
    cases n with
    | zero => omega
    | succ n =>
      have h0 : forkReturn i ≠ 0 := by
        have := hparent 0 (Nat.succ_pos k)
        simpa using this
      have hrest : ∀ j, j < k → forkReturn (i + 1 + j) ≠ 0 := by
        intro j hj
        have := hparent (j + 1) (Nat.succ_lt_succ hj)
        rwa [show i + (j + 1) = i + 1 + j from by omega] at this
      have hchild2 : forkReturn (i + 1 + k) = 0 := by
        rwa [show i + (k + 1) = i + 1 + k from by omega] at hchild
      rw [forkChildren, if_neg h0, ih n (i + 1) _ (Nat.lt_of_succ_lt_succ hk) hrest hchild2]
      have hmap : (List.range (k + 1)).map (fun j => forkReturn (i + j))
          = forkReturn i :: (List.range k).map (fun j => forkReturn (i + 1 + j)) := by
        rw [List.range_succ_eq_map, List.map_cons, List.map_map]
        simp only [Nat.add_zero, List.cons.injEq, true_and]
        apply List.map_congr_left
        intro j _
        simp only [Function.comp_apply]
        congr 1
        omega
      rw [hmap]
      simp only [List.append_assoc, List.singleton_append, ForkState.mk.injEq, true_and]
      omega

/-- C30: with `-n N`, `N` at least 1, the process in which every `fork` returns a nonzero
value (the parent) goes through exactly `N` calls of `fork`, records the `N` values
returned and runs the monitor; the child created by call number `k` makes no further
call (its loop ends at the call that created it) and runs the client; without `-n`, or
with `N` equal to 0, `fork` is not called and the process runs the client. `N` is the
`int` that `atoi` returns for the argument: the integer written when that fits 32 bits, and
always a value between -2^31 and 2^31 - 1. -/
theorem assignmentClient_forks (numForksString : String) (forkReturn : Nat → Int) :
    (1 ≤ atoi numForksString →
      (∀ i, i < (atoi numForksString).toNat → forkReturn i ≠ 0) →
      assignmentClientMain (some numForksString) forkReturn
        = some { numForks := atoi numForksString
                 forks :=
                   { processID := forkReturn ((atoi numForksString).toNat - 1)
                     childForks := (List.range (atoi numForksString).toNat).map forkReturn
                     forkCalls := (atoi numForksString).toNat }
                 role := ProcessRole.parentMonitor }) ∧
    (∀ k, k < (atoi numForksString).toNat → (∀ j, j < k → forkReturn j ≠ 0) →
      forkReturn k = 0 →
      assignmentClientMain (some numForksString) forkReturn
        = some { numForks := atoi numForksString
                 forks :=
                   { processID := 0
                     childForks := (List.range k).map forkReturn
                     forkCalls := k + 1 }
                 role := ProcessRole.childClient }) ∧
    assignmentClientMain none forkReturn
      = some { numForks := 0, forks := { processID := 0, childForks := [], forkCalls := 0 },
               role := ProcessRole.childClient } ∧
    (atoi numForksString = 0 →
      assignmentClientMain (some numForksString) forkReturn
        = some { numForks := 0, forks := { processID := 0, childForks := [], forkCalls := 0 },
                 role := ProcessRole.childClient }) ∧
    (-2147483648 ≤ atoi numForksString ∧ atoi numForksString ≤ 2147483647) ∧
    (-2147483648 ≤ writtenInteger numForksString →
      writtenInteger numForksString ≤ 2147483647 →
      atoi numForksString = writtenInteger numForksString) := by
  refine ⟨fun hN hparent => ?_, fun k hk hparent hchild => ?_, rfl, fun h0 => ?_,
    atoi_range numForksString, atoi_of_range numForksString⟩
  · have hnn : ¬ atoi numForksString < 0 := by omega
    have hpos : 0 < (atoi numForksString).toNat := by omega
    have hloop := forkChildren_parent forkReturn (atoi numForksString).toNat 0
      { processID := 0, childForks := [], forkCalls := 0 }
      (fun k hk => by simpa using hparent k hk)
    have hlast : forkReturn ((atoi numForksString).toNat - 1) ≠ 0 :=
      hparent _ (by omega)
    have hne : (atoi numForksString).toNat ≠ 0 := by omega
    simp only [Nat.zero_add, List.nil_append, if_neg hne] at hloop
    simp only [assignmentClientMain, if_neg hnn, hloop]
    have hN0 : atoi numForksString ≠ 0 := by omega
    simp [hlast, hN0]
  · have hnn : ¬ atoi numForksString < 0 := by
      intro hneg
      have : (atoi numForksString).toNat = 0 := Int.toNat_of_nonpos (le_of_lt hneg)
      omega
    have hloop := forkChildren_child forkReturn (atoi numForksString).toNat 0 k
      { processID := 0, childForks := [], forkCalls := 0 } hk
      (fun j hj => by simpa using hparent j hj) (by simpa using hchild)
    simp only [Nat.zero_add, List.nil_append] at hloop
    simp only [assignmentClientMain, if_neg hnn, hloop]
    simp
  · simp [assignmentClientMain, h0, forkChildren]

/-- Witness for C30: `-n 3`; the parent gets the process identifiers 100, 101 and 102, the
second child sees 100 and then 0. With `-n 4294967298`, which `atoi` returns as the `int`
2, the parent goes through two calls of `fork`. -/
theorem assignmentClient_forks_witness :
    assignmentClientMain (some "3") (fun i => 100 + (i : Int))
      = some { numForks := 3
               forks := { processID := 102, childForks := [100, 101, 102], forkCalls := 3 }
               role := ProcessRole.parentMonitor } ∧
    assignmentClientMain (some "3") (fun i => if i = 1 then 0 else 100 + (i : Int))
      = some { numForks := 3
               forks := { processID := 0, childForks := [100], forkCalls := 2 }
               role := ProcessRole.childClient } ∧
    atoi "4294967298" = 2 ∧
    assignmentClientMain (some "4294967298") (fun i => 100 + (i : Int))
      = some { numForks := 2
               forks := { processID := 101, childForks := [100, 101], forkCalls := 2 }
               role := ProcessRole.parentMonitor } :=
  ⟨(assignmentClient_forks "3" (fun i => 100 + (i : Int))).1 (by decide)
      (fun i _ => by omega),
   (assignmentClient_forks "3" (fun i => if i = 1 then 0 else 100 + (i : Int))).2.1 1
      (by decide) (fun j hj => by
        have hj0 : j = 0 := by omega
        subst hj0
        decide) (by decide),
   by decide,
   (assignmentClient_forks "4294967298" (fun i => 100 + (i : Int))).1 (by decide)
      (fun i _ => by omega)⟩

/-! ## The per-client send worker -/

theorem sendInterval_length {α : Type} (budget : Nat) (pending : List α) :
    (sendInterval budget pending).1.length ≤ budget ∧
    (sendInterval budget pending).1 ++ (sendInterval budget pending).2 = pending := by
  induction budget generalizing pending with
  | zero => exact ⟨Nat.le_refl 0, rfl⟩
  | succ budget ih =>
    cases pending with
    | nil => exact ⟨Nat.zero_le _, rfl⟩
    | cons packet pending =>
      have h := ih pending
      refine ⟨?_, ?_⟩
      · simp only [sendInterval, List.length_cons]
        exact Nat.succ_le_succ h.1
      · simp only [sendInterval, List.cons_append, h.2]

/-- C22: a send worker with a budget of `N` packets per interval emits at most `N` packets
in an interval whatever is pending, in every one of its intervals, and loses none (what it
does not emit is left for the following interval); so for the budget
`PACKETS_PER_CLIENT_PER_INTERVAL` set at startup. -/
theorem sendInterval_within_budget {α : Type} (budget : Nat) (pending : List α) :
    (sendInterval budget pending).1.length ≤ budget ∧
    (sendInterval budget pending).1 ++ (sendInterval budget pending).2 = pending ∧
    (∀ intervals : Nat, ∀ emitted ∈ sendIntervals budget intervals pending,
      emitted.length ≤ budget) ∧
    (∀ (INTERVALS_PER_SECOND : Int) (packetsPerSecond : Option String),
      (((sendInterval
          (packetsPerClientPerInterval INTERVALS_PER_SECOND packetsPerSecond).toNat
          pending).1.length : Nat) : Int)
        ≤ packetsPerClientPerInterval INTERVALS_PER_SECOND packetsPerSecond) := by
  refine ⟨(sendInterval_length budget pending).1, (sendInterval_length budget pending).2,
    fun intervals => ?_, fun I o => ?_⟩
  · induction intervals generalizing pending with
    | zero =>
      intro emitted he
      simp [sendIntervals] at he
    | succ intervals ih =>
      intro emitted he
      simp only [sendIntervals, List.mem_cons] at he
      rcases he with rfl | he
      · exact (sendInterval_length budget pending).1
      · exact ih _ emitted he
  · have h := (sendInterval_length
      (packetsPerClientPerInterval I o).toNat pending).1
    have h2 : ((packetsPerClientPerInterval I o).toNat : Int)
        ≤ max (packetsPerClientPerInterval I o) 0 := by
      rw [Int.toNat_eq_max]
    have h3 : (1 : Int) ≤ packetsPerClientPerInterval I o := by
      cases o with
      | none =>
        show (1 : Int) ≤ 10
        decide
      | some p =>
        simp only [packetsPerClientPerInterval]
        split <;> omega
    have h4 : max (packetsPerClientPerInterval I o) 0 = packetsPerClientPerInterval I o :=
      max_eq_left (by omega)
    omega

end Hifi
